import Mathlib

/-!
Verification development for the causal-prototype repository.

This file shallowly embeds the graph model, the synthetic data generator
and the causal query dispatch engine of the repository, and proves
properties of the embedded definitions.  Numeric values carried by data
tables are modelled as rationals; a Python float NaN is modelled as the
value none of an Option type.  Randomness (numpy normal and Bernoulli
draws) and external library calls (pandas corr, DoWhy identification and
estimation) are modelled as explicit parameters of the embedded
functions, since their internals are not part of this repository.
-/

set_option maxRecDepth 4096
set_option linter.unusedVariables false

namespace CausalProto

/-- A directed edge of the DAG configuration.  The JSON keys are
named from and to; they are renamed source and target here because
from is a reserved word. -/
structure Edge where
  source : String
  target : String
deriving DecidableEq, Repr

/-- Variable metadata: the declared type string
(continuous, binary or categorical). -/
structure VarInfo where
  vtype : String
deriving DecidableEq, Repr

/-- The DAG configuration, mirroring the JSON layout used by
causal_model.py and synthetic_generator.py: a name-keyed mapping of
variables, an edge list, and the named roles. -/
structure DagConfig where
  variablesMap : List (String × VarInfo)
  edges : List Edge
  treatment_variable : Option String := none
  outcome_variable : Option String := none
  confounders : Option (List String) := none
deriving DecidableEq, Repr

/-- A networkx DiGraph, reduced to what the code uses: an ordered node
list and an ordered edge list. -/
structure Graph where
  nodes : List String
  edges : List (String × String)
deriving DecidableEq, Repr

/-- networkx add_node: appends the node if not already present. -/
def addNode (g : Graph) (v : String) : Graph :=
  if v ∈ g.nodes then g else { g with nodes := g.nodes ++ [v] }

/-- networkx add_edge: ensures both endpoints are nodes, then appends
the edge. -/
def addEdge (g : Graph) (u v : String) : Graph :=
  let g1 := addNode (addNode g u) v
  { g1 with edges := g1.edges ++ [(u, v)] }

/-- Building a DiGraph as both _build_graph functions do: add one node
per declared variable, then add every configured edge. -/
def buildDiGraph (vars : List String) (edges : List Edge) : Graph :=
  let g0 := vars.foldl addNode { nodes := [], edges := [] }
  edges.foldl (fun g e => addEdge g e.source e.target) g0

/-- One round of simultaneous source removal: keep exactly the nodes
that still have an incoming edge from a remaining node. -/
def peel (edges : List (String × String)) (rem : List String) : List String :=
  rem.filter (fun v => rem.any (fun u => decide ((u, v) ∈ edges)))

/-- Iterated source removal. -/
def kahnPeel (edges : List (String × String)) : Nat → List String → List String
  | 0, rem => rem
  | n + 1, rem => kahnPeel edges n (peel edges rem)

/-- Embedding of networkx is_directed_acyclic_graph: the graph is a DAG
exactly when iterated source removal eliminates every node.  On an
acyclic graph every nonempty remainder has a source, so the node count
bounds the number of rounds needed; on a cyclic graph the cycle nodes
are never removed. -/
def is_directed_acyclic_graph (g : Graph) : Bool :=
  (kahnPeel g.edges g.nodes.length g.nodes).isEmpty

/-- SyntheticDataGenerator._build_graph: build the DiGraph from the
configuration and reject non-DAGs with the fixed error message. -/
def SyntheticDataGenerator_build_graph (cfg : DagConfig) : Except String Graph :=
  let G := buildDiGraph (cfg.variablesMap.map Prod.fst) cfg.edges
  if is_directed_acyclic_graph G then Except.ok G
  else Except.error "The provided graph is not a DAG"

/-- CausalModel._build_networkx_graph: build the DiGraph from the
configuration.  The function performs no acyclicity check and has no
failure path. -/
def CausalModel_build_networkx_graph (cfg : DagConfig) : Graph :=
  buildDiGraph (cfg.variablesMap.map Prod.fst) cfg.edges

/-- The edge list of a configuration, as ordered pairs. -/
def edgePairs (edges : List Edge) : List (String × String) :=
  edges.map (fun e => (e.source, e.target))

/-- An edge list contains a cycle exactly when some nonempty vertex set
is closed under taking an in-neighbour: every vertex of the set has an
incoming edge from a vertex of the set.  For a finite graph this is the
standard characterisation of containing a directed cycle (walk the
in-neighbours backwards and apply pigeonhole). -/
def CyclicEdges (edges : List (String × String)) : Prop :=
  ∃ c : List String, c ≠ [] ∧ ∀ v ∈ c, ∃ u ∈ c, (u, v) ∈ edges

theorem mem_addNode_self (g : Graph) (v : String) : v ∈ (addNode g v).nodes := by
  unfold addNode
  by_cases h : v ∈ g.nodes <;> simp [h]

theorem mem_addNode_of_mem (g : Graph) (v w : String) (h : w ∈ g.nodes) :
    w ∈ (addNode g v).nodes := by
  unfold addNode
  by_cases hv : v ∈ g.nodes <;> simp [hv, h]

theorem edges_addNode (g : Graph) (v : String) : (addNode g v).edges = g.edges := by
  unfold addNode
  by_cases hv : v ∈ g.nodes <;> simp [hv]

/-- Invariant of graph building: every edge endpoint is a node. -/
def EdgesClosed (g : Graph) : Prop :=
  ∀ p ∈ g.edges, p.1 ∈ g.nodes ∧ p.2 ∈ g.nodes

theorem edgesClosed_addNode (g : Graph) (v : String) (h : EdgesClosed g) :
    EdgesClosed (addNode g v) := by
  intro p hp
  rw [edges_addNode] at hp
  exact ⟨mem_addNode_of_mem _ _ _ (h p hp).1, mem_addNode_of_mem _ _ _ (h p hp).2⟩

theorem edgesClosed_addEdge (g : Graph) (u v : String) (h : EdgesClosed g) :
    EdgesClosed (addEdge g u v) := by
  intro p hp
  unfold addEdge at hp ⊢
  simp only [List.mem_append, List.mem_singleton] at hp
  rcases hp with hp | hp
  · rw [edges_addNode, edges_addNode] at hp
    have h1 := edgesClosed_addNode _ v (edgesClosed_addNode _ u h)
    have := h1 p (by rw [edges_addNode, edges_addNode]; exact hp)
    exact this
  · subst hp
    constructor
    · exact mem_addNode_of_mem _ _ _ (mem_addNode_self g u)
    · exact mem_addNode_self (addNode g u) v

theorem edgesClosed_buildDiGraph (vars : List String) (edges : List Edge) :
    EdgesClosed (buildDiGraph vars edges) := by
  unfold buildDiGraph
  have h0 : EdgesClosed (vars.foldl addNode { nodes := [], edges := [] }) := by
    have : ∀ (l : List String) (g : Graph), EdgesClosed g →
        EdgesClosed (l.foldl addNode g) := by
      intro l
      induction l with
      | nil => intro g hg; exact hg
      | cons x xs ih => intro g hg; exact ih _ (edgesClosed_addNode g x hg)
    exact this vars _ (by intro p hp; simp at hp)
  have : ∀ (es : List Edge) (g : Graph), EdgesClosed g →
      EdgesClosed (es.foldl (fun g e => addEdge g e.source e.target) g) := by
    intro es
    induction es with
    | nil => intro g hg; exact hg
    | cons e es ih => intro g hg; exact ih _ (edgesClosed_addEdge g _ _ hg)
  exact this edges _ h0

theorem mem_peel_of_closed {edges : List (String × String)} {rem c : List String}
    (hc : ∀ v ∈ c, ∃ u ∈ c, (u, v) ∈ edges) (hsub : ∀ v ∈ c, v ∈ rem) :
    ∀ v ∈ c, v ∈ peel edges rem := by
  intro v hv
  obtain ⟨u, hu, he⟩ := hc v hv
  refine List.mem_filter.mpr ⟨hsub v hv, ?_⟩
  simp only [List.any_eq_true]
  exact ⟨u, hsub u hu, by simpa using he⟩

theorem mem_kahnPeel_of_closed {edges : List (String × String)} {c : List String}
    (hc : ∀ v ∈ c, ∃ u ∈ c, (u, v) ∈ edges) :
    ∀ (n : Nat) (rem : List String), (∀ v ∈ c, v ∈ rem) →
      ∀ v ∈ c, v ∈ kahnPeel edges n rem := by
  intro n
  induction n with
  | zero => intro rem h; exact h
  | succ n ih =>
    intro rem h
    exact ih _ (mem_peel_of_closed hc h)

/-- A graph whose edge endpoints are nodes and whose edge list contains
a cycle is rejected by the acyclicity check. -/
theorem isDAG_false_of_cyclic {g : Graph} (hclosed : EdgesClosed g)
    (hcyc : CyclicEdges g.edges) : is_directed_acyclic_graph g = false := by
  obtain ⟨c, hne, hc⟩ := hcyc
  obtain ⟨v, hv⟩ := List.exists_mem_of_ne_nil c hne
  have hsub : ∀ w ∈ c, w ∈ g.nodes := by
    intro w hw
    obtain ⟨u, _, he⟩ := hc w hw
    exact (hclosed (u, w) he).2
  have hmem := mem_kahnPeel_of_closed hc g.nodes.length g.nodes hsub v hv
  unfold is_directed_acyclic_graph
  cases hE : (kahnPeel g.edges g.nodes.length g.nodes).isEmpty
  · rfl
  · rw [List.isEmpty_iff] at hE
    rw [hE] at hmem
    exact absurd hmem (List.not_mem_nil v)

theorem edges_buildDiGraph (vars : List String) (edges : List Edge) :
    (buildDiGraph vars edges).edges = edgePairs edges := by
  unfold buildDiGraph edgePairs
  have h0 : ∀ (l : List String) (g : Graph), (l.foldl addNode g).edges = g.edges := by
    intro l
    induction l with
    | nil => intro g; rfl
    | cons x xs ih => intro g; rw [List.foldl_cons, ih, edges_addNode]
  have h1 : ∀ (es : List Edge) (g : Graph),
      (es.foldl (fun g e => addEdge g e.source e.target) g).edges
        = g.edges ++ es.map (fun e => (e.source, e.target)) := by
    intro es
    induction es with
    | nil => intro g; simp
    | cons e es ih =>
      intro g
      rw [List.foldl_cons, ih]
      show (addEdge g e.source e.target).edges ++ _ = _
      unfold addEdge
      simp [edges_addNode]
  rw [h1, h0]
  simp

/-- A concrete cyclic configuration: two continuous variables with the
edge set A to B and B to A. -/
def cfgAB : DagConfig :=
  { variablesMap := [("A", ⟨"continuous"⟩), ("B", ⟨"continuous"⟩)],
    edges := [⟨"A", "B"⟩, ⟨"B", "A"⟩] }

/-- C1 counterexample: the claim demands that on a cyclic configuration
every graph-building path fails and returns no graph model.  On the
cyclic configuration cfgAB the dispatch-path construction
(CausalModel._build_networkx_graph) performs no acyclicity check: it
returns a graph model containing both cyclic edges.  Moreover the
generator path rejects the configuration with a fixed message that names
no offending edge, not with an edge-naming CyclicGraphError. -/
theorem c1_counterexample :
    CausalModel_build_networkx_graph cfgAB
      = { nodes := ["A", "B"], edges := [("A", "B"), ("B", "A")] }
    ∧ SyntheticDataGenerator_build_graph cfgAB
      = Except.error "The provided graph is not a DAG" := by
  constructor
  · rfl
  · rfl

/-- Claim C1, amended: for every configuration whose edge set contains a
cycle, the generator construction (SyntheticDataGenerator._build_graph)
fails with the fixed error message "The provided graph is not a DAG"
(naming no offending edge), while the dispatch-path construction
(CausalModel._build_networkx_graph) performs no acyclicity check and
returns a graph model whose edge list is exactly the configured edge
list, cycle included. -/
theorem c1_build_graph (cfg : DagConfig) (h : CyclicEdges (edgePairs cfg.edges)) :
    SyntheticDataGenerator_build_graph cfg
      = Except.error "The provided graph is not a DAG"
    ∧ (CausalModel_build_networkx_graph cfg).edges = edgePairs cfg.edges := by
  refine ⟨?_, edges_buildDiGraph _ _⟩
  have hclosed := edgesClosed_buildDiGraph (cfg.variablesMap.map Prod.fst) cfg.edges
  have hcyc : CyclicEdges (buildDiGraph (cfg.variablesMap.map Prod.fst) cfg.edges).edges := by
    rw [edges_buildDiGraph]
    exact h
  have hfalse := isDAG_false_of_cyclic hclosed hcyc
  unfold SyntheticDataGenerator_build_graph
  simp [hfalse]

/-- Witness for c1_build_graph at the concrete cyclic configuration. -/
theorem c1_build_graph_witness :
    SyntheticDataGenerator_build_graph cfgAB
      = Except.error "The provided graph is not a DAG"
    ∧ (CausalModel_build_networkx_graph cfgAB).edges = edgePairs cfgAB.edges :=
  c1_build_graph cfgAB ⟨["A", "B"], by decide, by decide⟩

/-! ## Numeric model

Python floats are modelled as rationals; NaN is modelled as none.
The arithmetic helpers propagate NaN the way float arithmetic does. -/

/-- NaN-propagating addition. -/
def oadd : Option ℚ → Option ℚ → Option ℚ
  | some a, some b => some (a + b)
  | _, _ => none

/-- NaN-propagating subtraction. -/
def osub : Option ℚ → Option ℚ → Option ℚ
  | some a, some b => some (a - b)
  | _, _ => none

/-- NaN-propagating multiplication. -/
def omul : Option ℚ → Option ℚ → Option ℚ
  | some a, some b => some (a * b)
  | _, _ => none

/-- pandas Series.mean: NaN on an empty column, else the arithmetic
mean. -/
def pmean (l : List ℚ) : Option ℚ :=
  if l.length = 0 then none else some (l.sum / l.length)

/-- The guard pattern float(x) if not np.isnan(x) else 0.0. -/
def nanToZero (x : Option ℚ) : ℚ := x.getD 0

/-- A pandas DataFrame, reduced to what the handlers use: an ordered
association list of column name to column values.  Rows are aligned by
position across columns. -/
structure Table where
  cols : List (String × List ℚ)
deriving DecidableEq, Repr

/-- Column lookup (DataFrame indexing); none models a KeyError. -/
def Table.getCol (t : Table) (v : String) : Option (List ℚ) :=
  (t.cols.find? (fun c => c.1 == v)).map Prod.snd

/-- Membership test var in data.columns. -/
def Table.hasCol (t : Table) (v : String) : Bool :=
  (t.getCol v).isSome

/-- len(data): the number of rows. -/
def Table.nrows (t : Table) : Nat :=
  match t.cols with
  | [] => 0
  | c :: _ => c.2.length

/-- A table is rectangular with n rows when every column has length n. -/
def Table.Rect (t : Table) (n : Nat) : Prop :=
  ∀ c ∈ t.cols, c.2.length = n

/-- Boolean-mask row selection on a single column. -/
def selectMask (mask : List Bool) (l : List ℚ) : List ℚ :=
  ((l.zip mask).filter (fun p => p.2)).map Prod.fst

/-- Boolean-mask row selection on a whole table. -/
def filterTable (t : Table) (mask : List Bool) : Table :=
  ⟨t.cols.map (fun c => (c.1, selectMask mask c.2))⟩

/-! ## Causal Model Context (causal_model.py) -/

/-- The errors raised inside CausalModel.  The missing-variables error
carries the computed set of missing variables; configIncomplete is the
error raised when treatment or outcome is unset; dowhyFailed wraps a
failure of the external DoWhy constructor. -/
inductive ModelError where
  | missingVariables (vars : List String)
  | configIncomplete
  | dowhyFailed (msg : String)
deriving DecidableEq, Repr

/-- Outcomes of the two attempts the code makes at constructing the
external DoWhy model (first with the graph, then the fallback without
it).  DoWhy is an external collaborator, so its behaviour is a
parameter. -/
structure DowhyOutcome where
  withGraph : Except String Unit
  withoutGraph : Except String Unit

/-- The CausalModel wrapper state. -/
structure CausalModel where
  dag_config : DagConfig
  data : Option Table
  graph : Graph
  dowhy_model : Option Unit

/-- CausalModel._create_dowhy_model: requires treatment and outcome to
be set (Python truthiness: absent or empty string fails), then tries the
DoWhy constructor with the graph, falls back to the graph-free
constructor, and wraps a double failure. -/
def create_dowhy_model (cfg : DagConfig) (dw : DowhyOutcome) : Except ModelError Unit :=
  if (cfg.treatment_variable.getD "") = "" ∨ (cfg.outcome_variable.getD "") = "" then
    Except.error ModelError.configIncomplete
  else
    match dw.withGraph with
    | Except.ok _ => Except.ok ()
    | Except.error _ =>
      match dw.withoutGraph with
      | Except.ok _ => Except.ok ()
      | Except.error e2 => Except.error (ModelError.dowhyFailed e2)

/-- CausalModel.__init__: load the configuration, build the graph, and,
when a table is supplied, create the DoWhy model.  No column validation
is performed on this path. -/
def CausalModel_init (cfg : DagConfig) (dataTab : Option Table) (dw : DowhyOutcome) :
    Except ModelError CausalModel :=
  let graph := CausalModel_build_networkx_graph cfg
  match dataTab with
  | none =>
    Except.ok { dag_config := cfg, data := none, graph := graph, dowhy_model := none }
  | some d =>
    match create_dowhy_model cfg dw with
    | Except.ok _ =>
      Except.ok { dag_config := cfg, data := some d, graph := graph, dowhy_model := some () }
    | Except.error e => Except.error e

/-- The declared variables without a corresponding table column, in
declaration order. -/
def missingVars (cfg : DagConfig) (t : Table) : List String :=
  (cfg.variablesMap.map Prod.fst).filter (fun v => !(t.hasCol v))

/-- CausalModel._validate_data: raise on a nonempty missing set. -/
def CausalModel_validate_data (cfg : DagConfig) (t : Table) : Except ModelError Unit :=
  let missing := missingVars cfg t
  if missing = [] then Except.ok ()
  else Except.error (ModelError.missingVariables missing)

/-- CausalModel.attach_data: set the data, validate it, then create the
DoWhy model. -/
def CausalModel_attach_data (m : CausalModel) (t : Table) (dw : DowhyOutcome) :
    Except ModelError CausalModel :=
  match CausalModel_validate_data m.dag_config t with
  | Except.error e => Except.error e
  | Except.ok _ =>
    match create_dowhy_model m.dag_config dw with
    | Except.ok _ => Except.ok { m with data := some t, dowhy_model := some () }
    | Except.error e => Except.error e

/-- Claim C7: attaching a table whose columns miss some declared
variable fails with the missing-variables error naming exactly the
computed missing set; attaching a table covering every declared
variable never raises a missing-variables error (any remaining failure
is an unrelated configuration or DoWhy error). -/
theorem c7_attach_validates (m : CausalModel) (t : Table) (dw : DowhyOutcome) :
    (missingVars m.dag_config t ≠ [] →
      CausalModel_attach_data m t dw
        = Except.error (ModelError.missingVariables (missingVars m.dag_config t)))
    ∧ (missingVars m.dag_config t = [] →
      ∀ vs, CausalModel_attach_data m t dw ≠ Except.error (ModelError.missingVariables vs)) := by
  constructor
  · intro hne
    unfold CausalModel_attach_data CausalModel_validate_data
    simp [hne]
  · intro hemp vs
    unfold CausalModel_attach_data CausalModel_validate_data
    simp only [hemp, if_pos rfl]
    cases hdw : create_dowhy_model m.dag_config dw with
    | ok u => simp
    | error e =>
      simp only []
      intro hcontra
      unfold create_dowhy_model at hdw
      by_cases hc : (m.dag_config.treatment_variable.getD "") = ""
          ∨ (m.dag_config.outcome_variable.getD "") = ""
      · rw [if_pos hc] at hdw
        cases hdw
        cases hcontra
      · rw [if_neg hc] at hdw
        cases hg : dw.withGraph with
        | ok u => rw [hg] at hdw; cases hdw
        | error e1 =>
          rw [hg] at hdw
          cases hng : dw.withoutGraph with
          | ok u => rw [hng] at hdw; cases hdw
          | error e2 =>
            rw [hng] at hdw
            cases hdw
            cases hcontra

/-- A configuration with treatment x, outcome y. -/
def cfgXY : DagConfig :=
  { variablesMap := [("x", ⟨"continuous"⟩), ("y", ⟨"continuous"⟩)],
    edges := [⟨"x", "y"⟩],
    treatment_variable := some "x",
    outcome_variable := some "y" }

/-- A table carrying only the x column. -/
def tOnlyX : Table := ⟨[("x", [1, 2, 3])]⟩

/-- A DoWhy collaborator whose constructor succeeds. -/
def dwOk : DowhyOutcome := ⟨Except.ok (), Except.ok ()⟩

/-- A model built on cfgXY with no data attached yet. -/
def mXY : CausalModel :=
  { dag_config := cfgXY, data := none,
    graph := CausalModel_build_networkx_graph cfgXY, dowhy_model := none }

/-- Witness for c7_attach_validates: attaching a table lacking the
declared column y fails naming exactly y. -/
theorem c7_attach_validates_witness :
    CausalModel_attach_data mXY tOnlyX dwOk
      = Except.error (ModelError.missingVariables ["y"]) :=
  (c7_attach_validates mXY tOnlyX dwOk).1 (by decide)

/-- The DoWhy-creation step can fail, but never with a
missing-variables error. -/
theorem create_dowhy_model_ne_missing (cfg : DagConfig) (dw : DowhyOutcome)
    (vs : List String) :
    create_dowhy_model cfg dw ≠ Except.error (ModelError.missingVariables vs) := by
  unfold create_dowhy_model
  by_cases hc : (cfg.treatment_variable.getD "") = ""
      ∨ (cfg.outcome_variable.getD "") = ""
  · rw [if_pos hc]
    intro h
    simp at h
  · rw [if_neg hc]
    cases hg : dw.withGraph with
    | ok u => intro h; simp at h
    | error e1 =>
      cases hng : dw.withoutGraph with
      | ok u => intro h; simp at h
      | error e2 => intro h; simp at h

/-- Claim C8: the constructor path used by the dispatcher (a table
passed directly to CausalModel.__init__) performs no missing-column
validation: it can never produce a missing-variables error, and for a
complete role configuration with a cooperating DoWhy collaborator it
succeeds outright, whatever declared columns the table lacks. -/
theorem c8_init_skips_validation :
    (∀ (cfg : DagConfig) (d : Table) (dw : DowhyOutcome) (vs : List String),
      CausalModel_init cfg (some d) dw ≠ Except.error (ModelError.missingVariables vs))
    ∧ (∀ (cfg : DagConfig) (d : Table) (dw : DowhyOutcome),
      (cfg.treatment_variable.getD "") ≠ "" →
      (cfg.outcome_variable.getD "") ≠ "" →
      dw.withGraph = Except.ok () →
      CausalModel_init cfg (some d) dw
        = Except.ok { dag_config := cfg, data := some d,
                      graph := CausalModel_build_networkx_graph cfg,
                      dowhy_model := some () }) := by
  constructor
  · intro cfg d dw vs
    unfold CausalModel_init
    cases hdw : create_dowhy_model cfg dw with
    | ok u => simp
    | error e =>
      simp only []
      intro h
      injection h with h2
      rw [h2] at hdw
      exact create_dowhy_model_ne_missing cfg dw vs hdw
  · intro cfg d dw ht ho hg
    unfold CausalModel_init create_dowhy_model
    rw [if_neg (by exact fun hor => hor.elim ht ho), hg]

/-- A configuration declaring a confounder z besides treatment x and
outcome y. -/
def cfgC8 : DagConfig :=
  { variablesMap := [("x", ⟨"continuous"⟩), ("z", ⟨"continuous"⟩), ("y", ⟨"continuous"⟩)],
    edges := [⟨"z", "x"⟩, ⟨"z", "y"⟩, ⟨"x", "y"⟩],
    treatment_variable := some "x",
    outcome_variable := some "y",
    confounders := some ["z"] }

/-- A table with the treatment and outcome columns but without the
declared confounder column z. -/
def tXY : Table := ⟨[("x", [0, 1]), ("y", [2, 3])]⟩

/-- Witness for c8_init_skips_validation at a table lacking the
declared confounder z. -/
theorem c8_init_skips_validation_witness :
    CausalModel_init cfgC8 (some tXY) dwOk
      ≠ Except.error (ModelError.missingVariables ["z"])
    ∧ CausalModel_init cfgC8 (some tXY) dwOk
      = Except.ok { dag_config := cfgC8, data := some tXY,
                    graph := CausalModel_build_networkx_graph cfgC8,
                    dowhy_model := some () } :=
  ⟨c8_init_skips_validation.1 cfgC8 tXY dwOk ["z"],
   c8_init_skips_validation.2 cfgC8 tXY dwOk (by decide) (by decide) rfl⟩

/-! ## Query dispatcher (dispatch.py) -/

/-- Python dict insert-or-replace, preserving insertion order. -/
def dictInsert {α : Type} : List (String × α) → String → α → List (String × α)
  | [], k, v => [(k, v)]
  | p :: ps, k, v => if p.1 == k then (k, v) :: ps else p :: dictInsert ps k v

/-- Python dict lookup. -/
def dictLookup {α : Type} : List (String × α) → String → Option α
  | [], _ => none
  | p :: ps, k => if p.1 == k then some p.2 else dictLookup ps k

/-- The type of the pandas Series.corr collaborator: given two columns
it returns the Pearson correlation, or none for NaN (undefined). -/
def CorrFun : Type := List ℚ → List ℚ → Option ℚ

/-- One entry of the attribution_scores map of the anomaly handler, the
four guarded statistics the code stores. -/
structure ScoreEntry where
  correlation : ℚ
  normal_mean : ℚ
  anomaly_mean : ℚ
  difference : ℚ
deriving DecidableEq, Repr

/-- An anomaly_attribution query (required fields of the query JSON). -/
structure AnomalyQuery where
  outcome_variable : String
  anomaly_threshold : ℚ
  potential_causes : List String
deriving DecidableEq, Repr

/-- The result dictionary of the anomaly handler.  The summary string
is not modelled textually; top_contributor records the argmax
computation the summary performs, whose evaluation on an empty score
map raises in Python. -/
structure AnomalyResult where
  success : Bool
  outcome_variable : Option String := none
  anomalies_found : Option Nat := none
  attribution_scores : List (String × ScoreEntry) := []
  top_contributor : Option String := none
  error : Option String := none
deriving DecidableEq, Repr

/-- Python max(keys, key=abs correlation): the first key of maximal
absolute correlation, none on an empty map (where Python raises). -/
def argmaxAbsCorrelation (scores : List (String × ScoreEntry)) : Option String :=
  match scores with
  | [] => none
  | s :: rest =>
    some ((rest.foldl
      (fun best p => if |p.2.correlation| > |best.2.correlation| then p else best) s).1)

/-- The attribution entry stored for a present cause: the four
statistics with every NaN replaced by zero. -/
def anomalyEntry (corr : CorrFun) (ycol : List ℚ) (mask : List Bool)
    (ccol : List ℚ) : ScoreEntry :=
  { correlation := nanToZero (corr ccol ycol),
    normal_mean := nanToZero (pmean (selectMask (mask.map (fun b => !b)) ccol)),
    anomaly_mean := nanToZero (pmean (selectMask mask ccol)),
    difference :=
      match pmean (selectMask mask ccol),
        pmean (selectMask (mask.map (fun b => !b)) ccol) with
      | some am, some nm => am - nm
      | _, _ => 0 }

/-- The per-cause step of the attribution loop: absent causes are
skipped; present causes store the guarded statistics. -/
def anomalyScoreStep (corr : CorrFun) (data : Table) (ycol : List ℚ)
    (mask : List Bool) (acc : List (String × ScoreEntry)) (cause : String) :
    List (String × ScoreEntry) :=
  match data.getCol cause with
  | none => acc
  | some ccol => dictInsert acc cause (anomalyEntry corr ycol mask ccol)

/-- _handle_anomaly_attribution: flag rows with outcome strictly above
the threshold; with no anomalies return the empty success result;
otherwise score each present candidate cause and name the cause of
largest absolute correlation.  A missing outcome column raises KeyError
and the argmax over an empty score map raises ValueError; both are
converted by the enclosing except into a failure result. -/
def handle_anomaly_attribution (corr : CorrFun) (q : AnomalyQuery) (data : Table) :
    AnomalyResult :=
  match data.getCol q.outcome_variable with
  | none => { success := false, error := some ("KeyError: " ++ q.outcome_variable) }
  | some ycol =>
    let mask := ycol.map (fun v => decide (q.anomaly_threshold < v))
    if !(mask.any id) then
      { success := true, outcome_variable := some q.outcome_variable,
        anomalies_found := some 0, attribution_scores := [] }
    else
      let scores := q.potential_causes.foldl (anomalyScoreStep corr data ycol mask) []
      match argmaxAbsCorrelation scores with
      | none => { success := false, error := some "max() arg is an empty sequence" }
      | some top =>
        { success := true, outcome_variable := some q.outcome_variable,
          anomalies_found := some (mask.count true), attribution_scores := scores,
          top_contributor := some top }

/-- Claim C10: an anomaly threshold strictly above every outcome value
yields a success result with zero anomalies and an empty attribution
map, and no error. -/
theorem c10_threshold_above_max (corr : CorrFun) (q : AnomalyQuery) (data : Table)
    (ycol : List ℚ) (hy : data.getCol q.outcome_variable = some ycol)
    (hlt : ∀ v ∈ ycol, v < q.anomaly_threshold) :
    handle_anomaly_attribution corr q data
      = { success := true, outcome_variable := some q.outcome_variable,
          anomalies_found := some 0, attribution_scores := [],
          top_contributor := none, error := none } := by
  unfold handle_anomaly_attribution
  rw [hy]
  have hmask : (ycol.map (fun v => decide (q.anomaly_threshold < v))).any id = false := by
    rw [List.any_eq_false]
    intro x hx
    rw [List.mem_map] at hx
    obtain ⟨v, hv, rfl⟩ := hx
    simp only [id_eq, decide_eq_true_eq]
    exact not_lt.mpr (le_of_lt (hlt v hv))
  simp only [hmask, Bool.not_false, if_true]

/-- Witness for c10_threshold_above_max: a concrete query whose
threshold 100 exceeds every value of the outcome column. -/
theorem c10_threshold_above_max_witness :
    handle_anomaly_attribution (fun _ _ => none)
      { outcome_variable := "y", anomaly_threshold := 100, potential_causes := ["x"] }
      ⟨[("x", [1, 2]), ("y", [5, 7])]⟩
      = { success := true, outcome_variable := some "y",
          anomalies_found := some 0, attribution_scores := [],
          top_contributor := none, error := none } :=
  c10_threshold_above_max (fun _ _ => none)
    { outcome_variable := "y", anomaly_threshold := 100, potential_causes := ["x"] }
    ⟨[("x", [1, 2]), ("y", [5, 7])]⟩ [5, 7] rfl (by decide)

theorem dictInsert_ne_nil {α : Type} (m : List (String × α)) (k : String) (v : α) :
    dictInsert m k v ≠ [] := by
  cases m with
  | nil => simp [dictInsert]
  | cons p ps =>
    unfold dictInsert
    by_cases h : p.1 == k <;> simp [h]

theorem dictLookup_insert_of_ne {α : Type} (m : List (String × α)) (k c : String)
    (v : α) (h : k ≠ c) : dictLookup (dictInsert m k v) c = dictLookup m c := by
  induction m with
  | nil => simp [dictInsert, dictLookup, h]
  | cons p ps ih =>
    unfold dictInsert
    by_cases hp : p.1 == k
    · rw [if_pos hp]
      unfold dictLookup
      have hpk : p.1 = k := by simpa using hp
      have hkc : (k == c) = false := by simpa using h
      rw [hkc, hpk, hkc]
      simp
    · rw [if_neg hp]
      unfold dictLookup
      by_cases hpc : p.1 == c
      · rw [hpc]
        simp
      · simp only [hpc, Bool.false_eq_true, if_false]
        exact ih

theorem anomalyScoreStep_ne_nil (corr : CorrFun) (data : Table) (ycol : List ℚ)
    (mask : List Bool) (acc : List (String × ScoreEntry)) (cause : String)
    (h : acc ≠ []) : anomalyScoreStep corr data ycol mask acc cause ≠ [] := by
  unfold anomalyScoreStep
  cases hc : data.getCol cause with
  | none => exact h
  | some ccol => exact dictInsert_ne_nil _ _ _

theorem anomalyFold_ne_nil (corr : CorrFun) (data : Table) (ycol : List ℚ)
    (mask : List Bool) (causes : List String) :
    ∀ acc : List (String × ScoreEntry), acc ≠ [] →
      causes.foldl (anomalyScoreStep corr data ycol mask) acc ≠ [] := by
  induction causes with
  | nil => intro acc h; exact h
  | cons c cs ih =>
    intro acc h
    exact ih _ (anomalyScoreStep_ne_nil corr data ycol mask acc c h)

theorem anomalyFold_nil_iff (corr : CorrFun) (data : Table) (ycol : List ℚ)
    (mask : List Bool) (causes : List String) :
    ∀ acc : List (String × ScoreEntry),
      (causes.foldl (anomalyScoreStep corr data ycol mask) acc = []
        ↔ (acc = [] ∧ ∀ c ∈ causes, data.getCol c = none)) := by
  induction causes with
  | nil => intro acc; simp
  | cons c cs ih =>
    intro acc
    rw [List.foldl_cons, ih]
    constructor
    · rintro ⟨hstep, hall⟩
      revert hstep
      unfold anomalyScoreStep
      cases hc : data.getCol c with
      | none =>
        intro hstep
        refine ⟨hstep, ?_⟩
        intro x hx
        rcases List.mem_cons.mp hx with he | hm
        · rw [he]; exact hc
        · exact hall x hm
      | some ccol =>
        intro hstep
        exact absurd hstep (dictInsert_ne_nil _ _ _)
    · rintro ⟨hacc, hall⟩
      have hc : data.getCol c = none := hall c (List.mem_cons_self c cs)
      refine ⟨?_, fun x hx => hall x (List.mem_cons_of_mem c hx)⟩
      unfold anomalyScoreStep
      rw [hc, hacc]

theorem anomalyFold_lookup_none (corr : CorrFun) (data : Table) (ycol : List ℚ)
    (mask : List Bool) (causes : List String) (c : String)
    (hc : data.getCol c = none) :
    ∀ acc : List (String × ScoreEntry), dictLookup acc c = none →
      dictLookup (causes.foldl (anomalyScoreStep corr data ycol mask) acc) c = none := by
  induction causes with
  | nil => intro acc h; exact h
  | cons x xs ih =>
    intro acc h
    rw [List.foldl_cons]
    apply ih
    unfold anomalyScoreStep
    cases hx : data.getCol x with
    | none => exact h
    | some ccol =>
      have hne : x ≠ c := by
        intro he
        rw [he, hc] at hx
        cases hx
      rw [dictLookup_insert_of_ne _ _ _ _ hne]
      exact h

/-- The concrete anomaly query of the C4 counterexample. -/
def qC4 : AnomalyQuery :=
  { outcome_variable := "y", anomaly_threshold := 5, potential_causes := ["zz"] }

/-- The concrete table of the C4 counterexample: one outcome column
with one anomalous value. -/
def tC4 : Table := ⟨[("y", [1, 2, 10])]⟩

/-- A correlation collaborator that always reports NaN. -/
def corrNone : CorrFun := fun _ _ => none

/-- C4 counterexample: the claim says an absent potential cause is
recovered as a no-op and never causes success=false.  On a query whose
only potential cause zz is not a table column, with an anomaly present
(10 above threshold 5), the handler returns success=false: the summary
computes a max over the empty attribution map, which raises. -/
theorem c4_counterexample :
    (handle_anomaly_attribution corrNone qC4 tC4).success = false
    ∧ (handle_anomaly_attribution corrNone qC4 tC4).error
      = some "max() arg is an empty sequence" :=
  ⟨rfl, rfl⟩


/-- An effect_estimation query (required fields of the query JSON). -/
structure EffectQuery where
  treatment_variable : String
  outcome_variable : String
  confounders : List String := []
  treatment_value : Option ℚ := none
deriving DecidableEq, Repr

/-- One element of the estimates list: either a successful method with
its estimate and synthesized confidence interval, or a per-method
error record. -/
inductive EstimateEntry where
  | ok (method : String) (estimate : ℚ) (ci_low ci_high : ℚ)
  | err (method : String) (msg : String)
deriving DecidableEq, Repr

/-- The fixed method order the handler attempts. -/
def estimationMethods : List String :=
  ["backdoor.linear_regression", "backdoor.propensity_score_stratification"]

/-- The result dictionary of the effect-estimation handler. -/
structure EffectResult where
  success : Bool
  treatment_variable : Option String := none
  outcome_variable : Option String := none
  estimate : Option ℚ := none
  confidence_interval : Option (ℚ × ℚ) := none
  all_estimates : List EstimateEntry := []
  failed_estimates : List EstimateEntry := []
  error : Option String := none
deriving DecidableEq, Repr

/-- Per-method estimation attempt: a success is stored with the ad-hoc
band estimate plus-minus 1.96 * |estimate| * 0.1; a failure is stored
with its message. -/
def estimateEntryFor (est : String → Except String ℚ) (m : String) : EstimateEntry :=
  match est m with
  | Except.ok v =>
    EstimateEntry.ok m v (v - 196 / 100 * |v| * (1 / 10)) (v + 196 / 100 * |v| * (1 / 10))
  | Except.error e => EstimateEntry.err m e

/-- Whether an estimates entry carries an estimate (dict key test
"estimate" in e). -/
def isOkEntry : EstimateEntry → Bool
  | EstimateEntry.ok _ _ _ _ => true
  | EstimateEntry.err _ _ => false

/-- _handle_effect_estimation: run identification, attempt every method
in the fixed order collecting per-method entries, report the first
successful entry as primary, or fail with the collected errors. -/
def handle_effect_estimation (identify : Except String Unit)
    (est : String → Except String ℚ) (q : EffectQuery) : EffectResult :=
  match identify with
  | Except.error e => { success := false, error := some e }
  | Except.ok _ =>
    let estimates := estimationMethods.map (estimateEntryFor est)
    match estimates.find? isOkEntry with
    | some (EstimateEntry.ok _ v lo hi) =>
      { success := true, treatment_variable := some q.treatment_variable,
        outcome_variable := some q.outcome_variable,
        estimate := some v, confidence_interval := some (lo, hi),
        all_estimates := estimates }
    | _ =>
      { success := false, error := some "All estimation methods failed",
        failed_estimates := estimates }

/-- The first method of a list on which estimation succeeds, with its
estimate. -/
def firstSuccess (est : String → Except String ℚ) : List String → Option (String × ℚ)
  | [] => none
  | m :: ms =>
    match est m with
    | Except.ok v => some (m, v)
    | Except.error _ => firstSuccess est ms

/-- Claim C5: with identification succeeding, (1) every method whose
estimation succeeds is reported with a confidence interval exactly
equal to estimate plus-minus 1.96 * 0.1 * |estimate|; (2) the first
method in the fixed order that succeeds becomes the primary estimate
with success=true; (3) if every method fails, the result is
success=false carrying the per-method error entries. -/
theorem c5_effect_estimation (identify : Except String Unit)
    (est : String → Except String ℚ) (q : EffectQuery)
    (hid : identify = Except.ok ()) :
    (∀ m v, m ∈ estimationMethods → est m = Except.ok v →
      EstimateEntry.ok m v (v - 196 / 100 * |v| * (1 / 10)) (v + 196 / 100 * |v| * (1 / 10))
        ∈ (handle_effect_estimation identify est q).all_estimates
          ++ (handle_effect_estimation identify est q).failed_estimates)
    ∧ (∀ m v, firstSuccess est estimationMethods = some (m, v) →
      (handle_effect_estimation identify est q).success = true
      ∧ (handle_effect_estimation identify est q).estimate = some v
      ∧ (handle_effect_estimation identify est q).confidence_interval
        = some (v - 196 / 100 * |v| * (1 / 10), v + 196 / 100 * |v| * (1 / 10)))
    ∧ ((∀ m ∈ estimationMethods, ∃ e, est m = Except.error e) →
      (handle_effect_estimation identify est q).success = false
      ∧ (handle_effect_estimation identify est q).error
        = some "All estimation methods failed"
      ∧ (handle_effect_estimation identify est q).failed_estimates
        = estimationMethods.map (estimateEntryFor est)) := by
  subst hid
  cases h1 : est "backdoor.linear_regression" with
  | ok v1 =>
    have hr : handle_effect_estimation (Except.ok ()) est q
        = { success := true, treatment_variable := some q.treatment_variable,
            outcome_variable := some q.outcome_variable,
            estimate := some v1,
            confidence_interval :=
              some (v1 - 196 / 100 * |v1| * (1 / 10), v1 + 196 / 100 * |v1| * (1 / 10)),
            all_estimates :=
              [EstimateEntry.ok "backdoor.linear_regression" v1
                 (v1 - 196 / 100 * |v1| * (1 / 10)) (v1 + 196 / 100 * |v1| * (1 / 10)),
               estimateEntryFor est "backdoor.propensity_score_stratification"] } := by
      simp only [handle_effect_estimation, estimationMethods, List.map_cons, List.map_nil]
      rw [show estimateEntryFor est "backdoor.linear_regression"
            = EstimateEntry.ok "backdoor.linear_regression" v1
                (v1 - 196 / 100 * |v1| * (1 / 10)) (v1 + 196 / 100 * |v1| * (1 / 10)) by
        simp [estimateEntryFor, h1]]
      rfl
    refine ⟨?_, ?_, ?_⟩
    · intro m v hm hv
      rw [hr]
      rcases (by simpa [estimationMethods] using hm : m = "backdoor.linear_regression"
          ∨ m = "backdoor.propensity_score_stratification") with hme | hme
      · subst hme
        rw [h1] at hv
        injection hv with hv
        subst hv
        simp
      · subst hme
        have : estimateEntryFor est "backdoor.propensity_score_stratification"
            = EstimateEntry.ok "backdoor.propensity_score_stratification" v
                (v - 196 / 100 * |v| * (1 / 10)) (v + 196 / 100 * |v| * (1 / 10)) := by
          simp [estimateEntryFor, hv]
        simp [this]
    · intro m v hfs
      simp only [firstSuccess, estimationMethods, h1] at hfs
      injection hfs with hfs
      cases hfs
      rw [hr]
      exact ⟨rfl, rfl, rfl⟩
    · intro hall
      obtain ⟨e, he⟩ := hall "backdoor.linear_regression" (by simp [estimationMethods])
      rw [h1] at he
      cases he
  | error e1 =>
    cases h2 : est "backdoor.propensity_score_stratification" with
    | ok v2 =>
      have hr : handle_effect_estimation (Except.ok ()) est q
          = { success := true, treatment_variable := some q.treatment_variable,
              outcome_variable := some q.outcome_variable,
              estimate := some v2,
              confidence_interval :=
                some (v2 - 196 / 100 * |v2| * (1 / 10), v2 + 196 / 100 * |v2| * (1 / 10)),
              all_estimates :=
                [EstimateEntry.err "backdoor.linear_regression" e1,
                 EstimateEntry.ok "backdoor.propensity_score_stratification" v2
                   (v2 - 196 / 100 * |v2| * (1 / 10)) (v2 + 196 / 100 * |v2| * (1 / 10))] } := by
        simp only [handle_effect_estimation, estimationMethods, List.map_cons, List.map_nil]
        rw [show estimateEntryFor est "backdoor.linear_regression"
              = EstimateEntry.err "backdoor.linear_regression" e1 by
          simp [estimateEntryFor, h1]]
        rw [show estimateEntryFor est "backdoor.propensity_score_stratification"
              = EstimateEntry.ok "backdoor.propensity_score_stratification" v2
                  (v2 - 196 / 100 * |v2| * (1 / 10)) (v2 + 196 / 100 * |v2| * (1 / 10)) by
          simp [estimateEntryFor, h2]]
        rfl
      refine ⟨?_, ?_, ?_⟩
      · intro m v hm hv
        rw [hr]
        rcases (by simpa [estimationMethods] using hm : m = "backdoor.linear_regression"
            ∨ m = "backdoor.propensity_score_stratification") with hme | hme
        · subst hme
          rw [h1] at hv
          cases hv
        · subst hme
          rw [h2] at hv
          injection hv with hv
          subst hv
          simp
      · intro m v hfs
        simp only [firstSuccess, estimationMethods, h1, h2] at hfs
        injection hfs with hfs
        cases hfs
        rw [hr]
        exact ⟨rfl, rfl, rfl⟩
      · intro hall
        obtain ⟨e, he⟩ := hall "backdoor.propensity_score_stratification"
          (by simp [estimationMethods])
        rw [h2] at he
        cases he
    | error e2 =>
      have hr : handle_effect_estimation (Except.ok ()) est q
          = { success := false, error := some "All estimation methods failed",
              failed_estimates :=
                [EstimateEntry.err "backdoor.linear_regression" e1,
                 EstimateEntry.err "backdoor.propensity_score_stratification" e2] } := by
        simp only [handle_effect_estimation, estimationMethods, List.map_cons, List.map_nil]
        rw [show estimateEntryFor est "backdoor.linear_regression"
              = EstimateEntry.err "backdoor.linear_regression" e1 by
          simp [estimateEntryFor, h1]]
        rw [show estimateEntryFor est "backdoor.propensity_score_stratification"
              = EstimateEntry.err "backdoor.propensity_score_stratification" e2 by
          simp [estimateEntryFor, h2]]
        rfl
      refine ⟨?_, ?_, ?_⟩
      · intro m v hm hv
        rcases (by simpa [estimationMethods] using hm : m = "backdoor.linear_regression"
            ∨ m = "backdoor.propensity_score_stratification") with hme | hme
        · subst hme; rw [h1] at hv; cases hv
        · subst hme; rw [h2] at hv; cases hv
      · intro m v hfs
        simp only [firstSuccess, estimationMethods, h1, h2] at hfs
        cases hfs
      · intro _
        rw [hr]
        refine ⟨rfl, rfl, ?_⟩
        simp only [estimationMethods, List.map_cons, List.map_nil]
        rw [show estimateEntryFor est "backdoor.linear_regression"
              = EstimateEntry.err "backdoor.linear_regression" e1 by
          simp [estimateEntryFor, h1]]
        rw [show estimateEntryFor est "backdoor.propensity_score_stratification"
              = EstimateEntry.err "backdoor.propensity_score_stratification" e2 by
          simp [estimateEntryFor, h2]]

/-- A concrete estimation collaborator: the regression method returns
2, the stratification method fails. -/
def estC5 : String → Except String ℚ := fun m =>
  if m = "backdoor.linear_regression" then Except.ok 2
  else Except.error "estimation failed"

/-- A concrete effect query. -/
def qC5 : EffectQuery := { treatment_variable := "t", outcome_variable := "y" }

/-- Witness for c5_effect_estimation at the concrete collaborator. -/
theorem c5_effect_estimation_witness :
    (handle_effect_estimation (Except.ok ()) estC5 qC5).success = true
    ∧ (handle_effect_estimation (Except.ok ()) estC5 qC5).estimate = some 2
    ∧ (handle_effect_estimation (Except.ok ()) estC5 qC5).confidence_interval
      = some (2 - 196 / 100 * |(2 : ℚ)| * (1 / 10), 2 + 196 / 100 * |(2 : ℚ)| * (1 / 10)) :=
  (c5_effect_estimation (Except.ok ()) estC5 qC5 rfl).2.1 "backdoor.linear_regression" 2 rfl

theorem dictLookup_insert_self {α : Type} (m : List (String × α)) (k : String) (v : α) :
    dictLookup (dictInsert m k v) k = some v := by
  induction m with
  | nil => simp [dictInsert, dictLookup]
  | cons p ps ih =>
    unfold dictInsert
    by_cases hp : p.1 == k
    · rw [if_pos hp]
      unfold dictLookup
      simp
    · rw [if_neg hp]
      unfold dictLookup
      simp only [hp, Bool.false_eq_true, if_false]
      exact ih

/-- An intervention query (required fields of the query JSON). -/
structure InterventionQuery where
  intervention_variable : String
  intervention_value : ℚ
  outcome_variables : List String
deriving DecidableEq, Repr

/-- One entry of the intervention_effects map. -/
structure InterventionEffect where
  original_value : Option ℚ
  intervened_value : Option ℚ
  effect : Option ℚ
deriving DecidableEq, Repr

/-- The result dictionary of the intervention handler. -/
structure InterventionResult where
  success : Bool
  intervention_variable : Option String := none
  intervention_value : Option ℚ := none
  intervention_effects : List (String × InterventionEffect) := []
  error : Option String := none
deriving DecidableEq, Repr

/-- The simulated post-intervention outcome mean for one outcome
column: when the intervention column exists and its correlation with
the outcome is defined, original plus
(intervention_value - mean(intervention)) * correlation; otherwise the
original mean unchanged. -/
def interventionIntervened (corr : CorrFun) (q : InterventionQuery) (data : Table)
    (ycol : List ℚ) : Option ℚ :=
  match data.getCol q.intervention_variable with
  | some ivcol =>
    match corr ivcol ycol with
    | some c =>
      oadd (pmean ycol)
        (omul (osub (some q.intervention_value) (pmean ivcol)) (some c))
    | none => pmean ycol
  | none => pmean ycol

/-- First loop of _handle_intervention: for each outcome column present
in the table, record its unconditional mean and its simulated
post-intervention mean. -/
def interventionStep1 (corr : CorrFun) (q : InterventionQuery) (data : Table)
    (acc : List (String × Option ℚ) × List (String × Option ℚ)) (ov : String) :
    List (String × Option ℚ) × List (String × Option ℚ) :=
  match data.getCol ov with
  | none => acc
  | some ycol =>
    (dictInsert acc.1 ov (pmean ycol),
     dictInsert acc.2 ov (interventionIntervened corr q data ycol))

/-- Second loop of _handle_intervention: assemble the per-outcome
effect entries from the two dictionaries. -/
def interventionStep2 (origs inters : List (String × Option ℚ))
    (acc : List (String × InterventionEffect)) (ov : String) :
    List (String × InterventionEffect) :=
  match dictLookup origs ov with
  | none => acc
  | some o =>
    match dictLookup inters ov with
    | none => acc
    | some i =>
      dictInsert acc ov
        { original_value := o, intervened_value := i, effect := osub i o }

/-- _handle_intervention: simulate the intervention per requested
outcome and return a success result with the effects map.  With a typed
query the handler has no failure path. -/
def handle_intervention (corr : CorrFun) (q : InterventionQuery) (data : Table) :
    InterventionResult :=
  let od := q.outcome_variables.foldl (interventionStep1 corr q data) ([], [])
  let effects := q.outcome_variables.foldl (interventionStep2 od.1 od.2) []
  { success := true, intervention_variable := some q.intervention_variable,
    intervention_value := some q.intervention_value,
    intervention_effects := effects }

theorem interventionStep1_lookup_ne (corr : CorrFun) (q : InterventionQuery)
    (data : Table) (acc : List (String × Option ℚ) × List (String × Option ℚ))
    (x ov : String) (hne : x ≠ ov) :
    dictLookup (interventionStep1 corr q data acc x).1 ov = dictLookup acc.1 ov
    ∧ dictLookup (interventionStep1 corr q data acc x).2 ov = dictLookup acc.2 ov := by
  unfold interventionStep1
  cases hx : data.getCol x with
  | none => exact ⟨rfl, rfl⟩
  | some ycol =>
    exact ⟨dictLookup_insert_of_ne _ _ _ _ hne, dictLookup_insert_of_ne _ _ _ _ hne⟩

theorem interventionFold1_lookup_of_not_mem (corr : CorrFun) (q : InterventionQuery)
    (data : Table) (ovs : List String) (ov : String) (h : ov ∉ ovs) :
    ∀ acc, dictLookup (ovs.foldl (interventionStep1 corr q data) acc).1 ov
        = dictLookup acc.1 ov
      ∧ dictLookup (ovs.foldl (interventionStep1 corr q data) acc).2 ov
        = dictLookup acc.2 ov := by
  induction ovs with
  | nil => intro acc; exact ⟨rfl, rfl⟩
  | cons x xs ih =>
    intro acc
    have hx : x ≠ ov := by
      intro he
      exact h (he ▸ List.mem_cons_self x xs)
    have hxs : ov ∉ xs := fun hm => h (List.mem_cons_of_mem x hm)
    rw [List.foldl_cons]
    have h1 := interventionStep1_lookup_ne corr q data acc x ov hx
    have h2 := ih hxs (interventionStep1 corr q data acc x)
    exact ⟨h2.1.trans h1.1, h2.2.trans h1.2⟩

theorem interventionFold1_lookup (corr : CorrFun) (q : InterventionQuery)
    (data : Table) (ov : String) (ycol : List ℚ)
    (hy : data.getCol ov = some ycol) :
    ∀ (ovs : List String) acc, ov ∈ ovs →
      dictLookup (ovs.foldl (interventionStep1 corr q data) acc).1 ov
        = some (pmean ycol)
      ∧ dictLookup (ovs.foldl (interventionStep1 corr q data) acc).2 ov
        = some (interventionIntervened corr q data ycol) := by
  intro ovs
  induction ovs with
  | nil => intro acc h; cases h
  | cons x xs ih =>
    intro acc hmem
    rw [List.foldl_cons]
    by_cases hx : ov ∈ xs
    · exact ih _ hx
    · have hxo : x = ov := by
        rcases List.mem_cons.mp hmem with h | h
        · exact h.symm
        · exact absurd h hx
      subst hxo
      have hnm := interventionFold1_lookup_of_not_mem corr q data xs x hx
        (interventionStep1 corr q data acc x)
      constructor
      · rw [hnm.1]
        unfold interventionStep1
        rw [hy]
        exact dictLookup_insert_self _ _ _
      · rw [hnm.2]
        unfold interventionStep1
        rw [hy]
        exact dictLookup_insert_self _ _ _

theorem interventionStep2_lookup_ne (origs inters : List (String × Option ℚ))
    (acc : List (String × InterventionEffect)) (x ov : String) (hne : x ≠ ov) :
    dictLookup (interventionStep2 origs inters acc x) ov = dictLookup acc ov := by
  unfold interventionStep2
  cases dictLookup origs x with
  | none => rfl
  | some o =>
    cases dictLookup inters x with
    | none => rfl
    | some i => exact dictLookup_insert_of_ne _ _ _ _ hne

theorem interventionFold2_lookup_of_not_mem (origs inters : List (String × Option ℚ))
    (ovs : List String) (ov : String) (h : ov ∉ ovs) :
    ∀ acc, dictLookup (ovs.foldl (interventionStep2 origs inters) acc) ov
      = dictLookup acc ov := by
  induction ovs with
  | nil => intro acc; rfl
  | cons x xs ih =>
    intro acc
    have hx : x ≠ ov := by
      intro he
      exact h (he ▸ List.mem_cons_self x xs)
    have hxs : ov ∉ xs := fun hm => h (List.mem_cons_of_mem x hm)
    rw [List.foldl_cons]
    exact (ih hxs _).trans (interventionStep2_lookup_ne origs inters acc x ov hx)

theorem interventionFold2_lookup (origs inters : List (String × Option ℚ))
    (ov : String) (o i : Option ℚ) (ho : dictLookup origs ov = some o)
    (hi : dictLookup inters ov = some i) :
    ∀ (ovs : List String) acc, ov ∈ ovs →
      dictLookup (ovs.foldl (interventionStep2 origs inters) acc) ov
        = some { original_value := o, intervened_value := i, effect := osub i o } := by
  intro ovs
  induction ovs with
  | nil => intro acc h; cases h
  | cons x xs ih =>
    intro acc hmem
    rw [List.foldl_cons]
    by_cases hx : ov ∈ xs
    · exact ih _ hx
    · have hxo : x = ov := by
        rcases List.mem_cons.mp hmem with h | h
        · exact h.symm
        · exact absurd h hx
      subst hxo
      rw [interventionFold2_lookup_of_not_mem origs inters xs x hx _]
      unfold interventionStep2
      rw [ho, hi]
      exact dictLookup_insert_self _ _ _

theorem getCol_length (data : Table) (n : Nat) (hrect : data.Rect n) (v : String)
    (col : List ℚ) (h : data.getCol v = some col) : col.length = n := by
  unfold Table.getCol at h
  cases hf : data.cols.find? (fun c => c.1 == v) with
  | none => rw [hf] at h; cases h
  | some p =>
    rw [hf] at h
    injection h with h
    rw [← h]
    exact hrect p (List.mem_of_find?_eq_some hf)

theorem pmean_some (col : List ℚ) (h : col.length ≠ 0) :
    pmean col = some (col.sum / col.length) := by
  simp [pmean, h]

/-- Claim C6: the intervention handler always succeeds, and for every
requested outcome variable present in the table the reported entry has
original value equal to the unconditional outcome mean, intervened
value equal to original + effect, and effect equal to
(intervention_value - mean(intervention column)) * correlation when the
intervention column exists and the correlation is defined, and zero
when the intervention column is absent or the correlation is NaN. -/
theorem c6_intervention (corr : CorrFun) (q : InterventionQuery) (data : Table)
    (n : Nat) (hrect : data.Rect n) (hn : 0 < n) :
    (handle_intervention corr q data).success = true
    ∧ ∀ ov ycol, ov ∈ q.outcome_variables → data.getCol ov = some ycol →
      ∃ o, pmean ycol = some o
        ∧ ∃ eff,
          dictLookup (handle_intervention corr q data).intervention_effects ov
            = some { original_value := some o, intervened_value := some (o + eff),
                     effect := some eff }
          ∧ ((∃ ivcol c m, data.getCol q.intervention_variable = some ivcol
                ∧ corr ivcol ycol = some c ∧ pmean ivcol = some m
                ∧ eff = (q.intervention_value - m) * c)
             ∨ (eff = 0
                ∧ (data.getCol q.intervention_variable = none
                   ∨ ∃ ivcol, data.getCol q.intervention_variable = some ivcol
                       ∧ corr ivcol ycol = none))) := by
  refine ⟨rfl, ?_⟩
  intro ov ycol hmem hy
  have hylen : ycol.length = n := getCol_length data n hrect ov ycol hy
  have ho : pmean ycol = some (ycol.sum / ycol.length) :=
    pmean_some ycol (by rw [hylen]; exact Nat.pos_iff_ne_zero.mp hn)
  have h1 := interventionFold1_lookup corr q data ov ycol hy
    q.outcome_variables ([], []) hmem
  have h2 := interventionFold2_lookup
    (q.outcome_variables.foldl (interventionStep1 corr q data) ([], [])).1
    (q.outcome_variables.foldl (interventionStep1 corr q data) ([], [])).2
    ov (pmean ycol) (interventionIntervened corr q data ycol) h1.1 h1.2
    q.outcome_variables [] hmem
  cases hiv : data.getCol q.intervention_variable with
  | none =>
    have hint : interventionIntervened corr q data ycol = pmean ycol := by
      simp [interventionIntervened, hiv]
    rw [hint, ho] at h2
    refine ⟨ycol.sum / ycol.length, ho, 0, ?_, Or.inr ⟨rfl, Or.inl rfl⟩⟩
    have hentry :
        (⟨some (ycol.sum / ycol.length), some (ycol.sum / ycol.length),
          osub (some (ycol.sum / ycol.length)) (some (ycol.sum / ycol.length))⟩
            : InterventionEffect)
        = ⟨some (ycol.sum / ycol.length), some (ycol.sum / ycol.length + 0), some 0⟩ := by
      simp [osub]
    rw [hentry] at h2
    exact h2
  | some ivcol =>
    have hivlen : ivcol.length = n := getCol_length data n hrect _ ivcol hiv
    have hm : pmean ivcol = some (ivcol.sum / ivcol.length) :=
      pmean_some ivcol (by rw [hivlen]; exact Nat.pos_iff_ne_zero.mp hn)
    cases hc : corr ivcol ycol with
    | none =>
      have hint : interventionIntervened corr q data ycol = pmean ycol := by
        simp [interventionIntervened, hiv, hc]
      rw [hint, ho] at h2
      refine ⟨ycol.sum / ycol.length, ho, 0, ?_, Or.inr ⟨rfl, Or.inr ⟨ivcol, rfl, hc⟩⟩⟩
      have hentry :
          (⟨some (ycol.sum / ycol.length), some (ycol.sum / ycol.length),
            osub (some (ycol.sum / ycol.length)) (some (ycol.sum / ycol.length))⟩
              : InterventionEffect)
          = ⟨some (ycol.sum / ycol.length), some (ycol.sum / ycol.length + 0), some 0⟩ := by
        simp [osub]
      rw [hentry] at h2
      exact h2
    | some c =>
      have hint : interventionIntervened corr q data ycol
          = some (ycol.sum / ycol.length
              + (q.intervention_value - ivcol.sum / ivcol.length) * c) := by
        simp only [interventionIntervened, hiv, hc, ho, hm]
        rfl
      rw [hint, ho] at h2
      refine ⟨ycol.sum / ycol.length, ho,
        (q.intervention_value - ivcol.sum / ivcol.length) * c, ?_,
        Or.inl ⟨ivcol, c, ivcol.sum / ivcol.length, rfl, hc, hm, rfl⟩⟩
      have hentry :
          (⟨some (ycol.sum / ycol.length),
            some (ycol.sum / ycol.length
              + (q.intervention_value - ivcol.sum / ivcol.length) * c),
            osub (some (ycol.sum / ycol.length
                + (q.intervention_value - ivcol.sum / ivcol.length) * c))
              (some (ycol.sum / ycol.length))⟩ : InterventionEffect)
          = ⟨some (ycol.sum / ycol.length),
             some (ycol.sum / ycol.length
               + (q.intervention_value - ivcol.sum / ivcol.length) * c),
             some ((q.intervention_value - ivcol.sum / ivcol.length) * c)⟩ := by
        simp [osub]
      rw [hentry] at h2
      exact h2

/-- A correlation collaborator that always reports 1. -/
def corrOne : CorrFun := fun _ _ => some 1

/-- A concrete intervention query: set t to 10 and read y. -/
def qC6 : InterventionQuery :=
  { intervention_variable := "t", intervention_value := 10,
    outcome_variables := ["y"] }

/-- A concrete two-row table for the intervention witness. -/
def dataC6 : Table := ⟨[("t", [1, 3]), ("y", [2, 6])]⟩

/-- Witness for c6_intervention at the concrete query and table. -/
theorem c6_intervention_witness :
    (handle_intervention corrOne qC6 dataC6).success = true
    ∧ (∃ o, pmean ([2, 6] : List ℚ) = some o
        ∧ ∃ eff,
          dictLookup (handle_intervention corrOne qC6 dataC6).intervention_effects "y"
            = some { original_value := some o, intervened_value := some (o + eff),
                     effect := some eff }
          ∧ ((∃ ivcol c m, dataC6.getCol qC6.intervention_variable = some ivcol
                ∧ corrOne ivcol [2, 6] = some c ∧ pmean ivcol = some m
                ∧ eff = (qC6.intervention_value - m) * c)
             ∨ (eff = 0
                ∧ (dataC6.getCol qC6.intervention_variable = none
                   ∨ ∃ ivcol, dataC6.getCol qC6.intervention_variable = some ivcol
                       ∧ corrOne ivcol [2, 6] = none)))) :=
  ⟨(c6_intervention corrOne qC6 dataC6 2
      (by intro c hc; fin_cases hc <;> rfl) (by decide)).1,
   (c6_intervention corrOne qC6 dataC6 2
      (by intro c hc; fin_cases hc <;> rfl) (by decide)).2 "y" [2, 6]
     (by decide) rfl⟩

/-- A counterfactual query: the two scenario maps (JSON keys
factual_scenario and counterfactual_scenario) and the outcome. -/
structure CounterfactualQuery where
  factualScen : List (String × ℚ)
  cfScen : List (String × ℚ)
  outcome_variable : String
deriving DecidableEq, Repr

/-- The result dictionary of the counterfactual handler. -/
structure CounterfactualResult where
  success : Bool
  outcome_variable : Option String := none
  factual_outcome : Option ℚ := none
  counterfactual_outcome : Option ℚ := none
  counterfactual_effect : Option ℚ := none
  error : Option String := none
deriving DecidableEq, Repr

/-- The pandas row test abs(x - value) <= col.std().  The sample
standard deviation uses denominator length - 1, so with fewer than two
rows it is NaN and the comparison is false.  Otherwise, writing n for
the length and S for the column sum, the real comparison
abs(x - value) <= sqrt(sum (y - S/n)^2 / (n-1)) is squared and then
scaled by the positive factor n^2, giving the exactly equivalent
division-free rational comparison
(x - value)^2 * (n-1) * n^2 <= sum (n*y - S)^2. -/
def withinStd (col : List ℚ) (value x : ℚ) : Bool :=
  if 2 ≤ col.length then
    decide ((x - value) ^ 2 * ((col.length : ℚ) - 1) * (col.length : ℚ) ^ 2
      ≤ ((col.map (fun y => ((col.length : ℚ) * y - col.sum) ^ 2)).sum))
  else false

/-- One iteration of the factual-scenario filter loop: for a variable
present in the original columns, keep the rows of the current table
whose value lies within one standard deviation of the declared value,
the standard deviation being that of the CURRENT (already filtered)
column. -/
def counterfactualFilterStep (data : Table) (t : Table) (pv : String × ℚ) : Table :=
  if data.hasCol pv.1 then
    let col := (t.getCol pv.1).getD []
    filterTable t (col.map (fun x => withinStd col pv.2 x))
  else t

/-- The sequential factual-scenario filter of _handle_counterfactual. -/
def counterfactualFiltered (data : Table) (scen : List (String × ℚ)) : Table :=
  scen.foldl (counterfactualFilterStep data) data

/-- One iteration of the counterfactual adjustment loop. -/
def counterfactualAdjStep (corr : CorrFun) (q : CounterfactualQuery) (data : Table)
    (acc : ℚ) (pv : String × ℚ) : ℚ :=
  if data.hasCol pv.1 then
    match dictLookup q.factualScen pv.1 with
    | none => acc
    | some fv =>
      match corr ((data.getCol pv.1).getD [])
          ((data.getCol q.outcome_variable).getD []) with
      | some c => acc + (pv.2 - fv) * c
      | none => acc
  else acc

/-- _handle_counterfactual: sequentially filter to the factual
scenario, fall back to the whole table if no row survives, take the
factual outcome as the outcome mean of that set, and add the summed
adjustment.  A missing outcome column raises KeyError, converted by the
enclosing except into a failure result. -/
def handle_counterfactual (corr : CorrFun) (q : CounterfactualQuery) (data : Table) :
    CounterfactualResult :=
  let filtered := counterfactualFiltered data q.factualScen
  let filtered2 := if filtered.nrows = 0 then data else filtered
  match filtered2.getCol q.outcome_variable with
  | none => { success := false, error := some ("KeyError: " ++ q.outcome_variable) }
  | some ycol =>
    let factual := pmean ycol
    let adjustment := q.cfScen.foldl (counterfactualAdjStep corr q data) 0
    { success := true, outcome_variable := some q.outcome_variable,
      factual_outcome := factual,
      counterfactual_outcome := oadd factual (some adjustment),
      counterfactual_effect := osub (oadd factual (some adjustment)) factual }

/-- Pointwise conjunction of two row masks. -/
def zipAnd (a b : List Bool) : List Bool :=
  List.zipWith (fun x y => x && y) a b

/-- Modelled from the claim text, for comparison with the code: the
intersection of the per-variable one-standard-deviation filters, each
window computed on the UNFILTERED table. -/
def specMask (data : Table) (scen : List (String × ℚ)) : List Bool :=
  scen.foldl (fun mask pv =>
    if data.hasCol pv.1 then
      zipAnd mask
        (((data.getCol pv.1).getD []).map
          (fun x => withinStd ((data.getCol pv.1).getD []) pv.2 x))
    else mask) (List.replicate data.nrows true)

/-- Modelled from the claim text: the table restricted to the
intersection of the per-variable filters. -/
def specCounterfactualFiltered (data : Table) (scen : List (String × ℚ)) : Table :=
  filterTable data (specMask data scen)

/-- The concrete counterfactual query of the C3 counterexample. -/
def qC3 : CounterfactualQuery :=
  { factualScen := [("a", 0), ("b", 5)], cfScen := [], outcome_variable := "y" }

/-- The concrete table of the C3 counterexample. -/
def dataC3 : Table :=
  ⟨[("a", [0, 0, 10]), ("b", [0, 5, 100]), ("y", [0, 10, 100])]⟩

/-- C3 counterexample: the claim reads the filter as the intersection
of per-variable one-standard-deviation filters on the table.  On this
table the code filters sequentially, recomputing the standard deviation
of b on the rows surviving the filter on a: the handler reports factual
outcome 10, while the claimed intersection reading yields 5. -/
theorem c3_counterexample :
    ((counterfactualFiltered dataC3 qC3.factualScen).getCol "y").getD [] = [10]
    ∧ ((specCounterfactualFiltered dataC3 qC3.factualScen).getCol "y").getD []
      = [0, 10]
    ∧ (handle_counterfactual corrNone qC3 dataC3).factual_outcome
      = pmean [10]
    ∧ (handle_counterfactual corrNone qC3 dataC3).factual_outcome
      ≠ pmean (((specCounterfactualFiltered dataC3 qC3.factualScen).getCol "y").getD []) := by
  have wA0 : withinStd [0, 0, 10] 0 0 = true := by norm_num [withinStd]
  have wA10 : withinStd [0, 0, 10] 0 10 = false := by norm_num [withinStd]
  have wB0 : withinStd [0, 5] 5 0 = false := by norm_num [withinStd]
  have wB5 : withinStd [0, 5] 5 5 = true := by norm_num [withinStd]
  have wsB0 : withinStd [0, 5, 100] 5 0 = true := by norm_num [withinStd]
  have wsB5 : withinStd [0, 5, 100] 5 5 = true := by norm_num [withinStd]
  have wsB100 : withinStd [0, 5, 100] 5 100 = false := by norm_num [withinStd]
  have hfil : counterfactualFiltered dataC3 qC3.factualScen
      = (⟨[("a", [0]), ("b", [5]), ("y", [10])]⟩ : Table) := by
    simp [counterfactualFiltered, counterfactualFilterStep, dataC3, qC3, Table.hasCol,
      Table.getCol, filterTable, selectMask, wA0, wA10, wB0, wB5, List.find?]
  have hspec : specCounterfactualFiltered dataC3 qC3.factualScen
      = (⟨[("a", [0, 0]), ("b", [0, 5]), ("y", [0, 10])]⟩ : Table) := by
    simp [specCounterfactualFiltered, specMask, dataC3, qC3, Table.hasCol,
      Table.getCol, Table.nrows, filterTable, selectMask, zipAnd, wA0, wA10,
      wsB0, wsB5, wsB100, List.find?, List.replicate]
  have hfo : (handle_counterfactual corrNone qC3 dataC3).factual_outcome
      = pmean [10] := by
    simp [handle_counterfactual, hfil, Table.nrows, Table.getCol, List.find?,
      show qC3.outcome_variable = "y" from rfl]
  refine ⟨by rw [hfil]; rfl, by rw [hspec]; rfl, hfo, ?_⟩
  rw [hfo, hspec]
  show pmean [10] ≠ pmean [0, 10]
  simp only [pmean, List.sum_cons, List.sum_nil, List.length_cons, List.length_nil]
  norm_num

theorem getCol_filterTable (t : Table) (mask : List Bool) (v : String) :
    (filterTable t mask).getCol v = (t.getCol v).map (selectMask mask) := by
  unfold filterTable Table.getCol
  simp only [List.find?_map, Option.map_map]
  rfl

theorem hasCol_counterfactualFilterStep (data t : Table) (pv : String × ℚ)
    (v : String) :
    (counterfactualFilterStep data t pv).hasCol v = t.hasCol v := by
  unfold counterfactualFilterStep
  by_cases hd : data.hasCol pv.1
  · simp only [hd, if_true]
    unfold Table.hasCol
    rw [getCol_filterTable]
    cases t.getCol pv.1 <;> simp [Option.isSome_map]
  · simp [hd]

theorem hasCol_counterfactualFiltered (data : Table) (scen : List (String × ℚ))
    (v : String) :
    (counterfactualFiltered data scen).hasCol v = data.hasCol v := by
  unfold counterfactualFiltered
  have : ∀ (l : List (String × ℚ)) (t : Table),
      ((l.foldl (counterfactualFilterStep data) t).hasCol v) = t.hasCol v := by
    intro l
    induction l with
    | nil => intro t; rfl
    | cons p ps ih =>
      intro t
      rw [List.foldl_cons, ih, hasCol_counterfactualFilterStep]
  exact this scen data

theorem zipAnd_replicate_true (m : List Bool) :
    ∀ n, m.length = n → zipAnd (List.replicate n true) m = m := by
  induction m with
  | nil => intro n h; cases h; rfl
  | cons b bs ih =>
    intro n h
    cases n with
    | zero => cases h
    | succ k =>
      simp only [List.replicate_succ, zipAnd, List.zipWith_cons_cons, Bool.true_and]
      have := ih k (by simpa using h)
      unfold zipAnd at this
      rw [this]

theorem selectMask_replicate_true (col : List ℚ) :
    selectMask (List.replicate col.length true) col = col := by
  induction col with
  | nil => rfl
  | cons x xs ih =>
    simp only [List.length_cons, List.replicate_succ, selectMask, List.zip_cons_cons,
      List.filter_cons]
    simp only [selectMask] at ih
    simp [ih]

theorem filterTable_replicate_true (t : Table) (n : Nat) (hrect : t.Rect n) :
    filterTable t (List.replicate t.nrows true) = t := by
  cases t with
  | mk cols =>
    cases cols with
    | nil => rfl
    | cons c cs =>
      unfold filterTable Table.nrows
      simp only []
      have hall : ∀ c' ∈ c :: cs,
          (c'.1, selectMask (List.replicate c.2.length true) c'.2) = c' := by
        intro c' hc'
        have hlen : c'.2.length = n := hrect c' hc'
        have hcn : c.2.length = n := hrect c (List.mem_cons_self c cs)
        rw [hcn, ← hlen, selectMask_replicate_true]
      congr 1
      calc (c :: cs).map
            (fun c' => (c'.1, selectMask (List.replicate c.2.length true) c'.2))
          = (c :: cs).map id := List.map_congr_left hall
        _ = c :: cs := List.map_id _

/-- Claim C3, amended: the handler succeeds whenever the outcome column
exists; the factual outcome is the mean of the outcome column over the
SEQUENTIALLY filtered table (each one-standard-deviation window is
computed on the table as filtered by the preceding scenario variables),
with fallback to the unfiltered table when no row survives.  For a
single-variable factual scenario on a rectangular table the sequential
filter coincides with the intersection reading of the original claim;
the counterexample shows they differ for two variables. -/
theorem c3_counterfactual_sequential (corr : CorrFun) (q : CounterfactualQuery)
    (data : Table) (hy : data.hasCol q.outcome_variable = true) :
    (handle_counterfactual corr q data).success = true
    ∧ (handle_counterfactual corr q data).factual_outcome
      = pmean (((if (counterfactualFiltered data q.factualScen).nrows = 0 then data
                 else counterfactualFiltered data q.factualScen).getCol
                  q.outcome_variable).getD [])
    ∧ ∀ (pv : String × ℚ) (n : Nat), data.Rect n → q.factualScen = [pv] →
        counterfactualFiltered data q.factualScen
          = specCounterfactualFiltered data q.factualScen := by
  have hhc : (if (counterfactualFiltered data q.factualScen).nrows = 0 then data
      else counterfactualFiltered data q.factualScen).hasCol q.outcome_variable
      = true := by
    by_cases h0 : (counterfactualFiltered data q.factualScen).nrows = 0
    · simp [h0, hy]
    · simp [h0, hasCol_counterfactualFiltered, hy]
  obtain ⟨ycol, hyc⟩ : ∃ ycol,
      (if (counterfactualFiltered data q.factualScen).nrows = 0 then data
        else counterfactualFiltered data q.factualScen).getCol q.outcome_variable
      = some ycol := by
    unfold Table.hasCol at hhc
    exact Option.isSome_iff_exists.mp hhc
  refine ⟨?_, ?_, ?_⟩
  · simp only [handle_counterfactual, hyc]
  · simp only [handle_counterfactual, hyc, Option.getD_some]
  · intro pv n hrect hscen
    rw [hscen]
    show counterfactualFilterStep data data pv = specCounterfactualFiltered data [pv]
    unfold counterfactualFilterStep specCounterfactualFiltered specMask
    simp only [List.foldl_cons, List.foldl_nil]
    by_cases hd : data.hasCol pv.1
    · simp only [hd, if_true]
      cases hg : data.getCol pv.1 with
      | none =>
        unfold Table.hasCol at hd
        rw [hg] at hd
        simp at hd
      | some col =>
        have hlen : col.length = n := getCol_length data n hrect pv.1 col hg
        have hnr : data.nrows = n := by
          cases data with
          | mk cols =>
            cases cols with
            | nil =>
              unfold Table.getCol at hg
              cases hg
            | cons c cs =>
              unfold Table.nrows
              exact hrect c (List.mem_cons_self c cs)
        simp only [Option.getD_some]
        rw [hnr, ← hlen, zipAnd_replicate_true _ col.length (by simp)]
    · simp only [hd, Bool.false_eq_true, if_false]
      rw [filterTable_replicate_true data n hrect]

/-- A single-variable counterfactual query for the C3 witness. -/
def qC3b : CounterfactualQuery :=
  { factualScen := [("a", 0)], cfScen := [], outcome_variable := "y" }

/-- Witness for c3_counterfactual_sequential at a concrete query with a
single-variable factual scenario. -/
theorem c3_counterfactual_sequential_witness :
    (handle_counterfactual corrNone qC3b dataC3).success = true
    ∧ (handle_counterfactual corrNone qC3b dataC3).factual_outcome
      = pmean (((if (counterfactualFiltered dataC3 qC3b.factualScen).nrows = 0
                 then dataC3
                 else counterfactualFiltered dataC3 qC3b.factualScen).getCol
                  qC3b.outcome_variable).getD [])
    ∧ counterfactualFiltered dataC3 qC3b.factualScen
      = specCounterfactualFiltered dataC3 qC3b.factualScen :=
  ⟨(c3_counterfactual_sequential corrNone qC3b dataC3 rfl).1,
   (c3_counterfactual_sequential corrNone qC3b dataC3 rfl).2.1,
   (c3_counterfactual_sequential corrNone qC3b dataC3 rfl).2.2 ("a", 0) 3
     (by intro c hc; fin_cases hc <;> rfl) rfl⟩

/-- A distribution_shift_attribution query.  The two period fields are
accepted but unused by the code, which always splits by row order. -/
structure ShiftQuery where
  target_variable : String
  baseline_period : String
  comparison_period : String
  potential_drivers : List String
deriving DecidableEq, Repr

/-- One entry of the driver_contributions map.  Only the correlation is
NaN-guarded in the code; the means, the shift and the contribution are
stored as computed. -/
structure DriverEntry where
  baseline_mean : Option ℚ
  comparison_mean : Option ℚ
  shift : Option ℚ
  correlation_with_target : ℚ
  estimated_contribution : Option ℚ
deriving DecidableEq, Repr

/-- The result dictionary of the distribution-shift handler. -/
structure ShiftResult where
  success : Bool
  target_variable : Option String := none
  baseline_mean : Option ℚ := none
  comparison_mean : Option ℚ := none
  shift_magnitude : Option ℚ := none
  driver_contributions : List (String × DriverEntry) := []
  top_driver : Option String := none
  error : Option String := none
deriving DecidableEq, Repr

/-- Python max over driver keys by absolute estimated contribution;
NaN contributions never win a comparison, and the max of an empty map
raises. -/
def argmaxAbsContribution (entries : List (String × DriverEntry)) : Option String :=
  match entries with
  | [] => none
  | e :: rest =>
    some ((rest.foldl
      (fun best p =>
        match p.2.estimated_contribution, best.2.estimated_contribution with
        | some a, some b => if |a| > |b| then p else best
        | _, _ => best) e).1)

/-- The contribution entry stored for a present driver: the half means
and their shift as computed, the correlation NaN-guarded to zero, and a
zero contribution when the correlation is NaN. -/
def shiftEntry (corr : CorrFun) (tcol : List ℚ) (nb : Nat) (dcol : List ℚ) :
    DriverEntry :=
  { baseline_mean := pmean (dcol.take nb),
    comparison_mean := pmean (dcol.drop nb),
    shift := osub (pmean (dcol.drop nb)) (pmean (dcol.take nb)),
    correlation_with_target := nanToZero (corr dcol tcol),
    estimated_contribution :=
      match corr dcol tcol with
      | some cv => omul (osub (pmean (dcol.drop nb)) (pmean (dcol.take nb))) (some cv)
      | none => some 0 }

/-- The per-driver step of the distribution-shift loop: absent drivers
are skipped. -/
def shiftDriverStep (corr : CorrFun) (data : Table) (tcol : List ℚ) (nb : Nat)
    (acc : List (String × DriverEntry)) (driver : String) :
    List (String × DriverEntry) :=
  match data.getCol driver with
  | none => acc
  | some dcol => dictInsert acc driver (shiftEntry corr tcol nb dcol)

/-- _handle_distribution_shift_attribution: split the table in half by
row order, compare the target means, and attribute the shift to each
present driver as its mean shift times its correlation with the
target.  A missing target column raises KeyError, and the summary
argmax raises on an empty contribution map; both become failure
results. -/
def handle_distribution_shift_attribution (corr : CorrFun) (q : ShiftQuery)
    (data : Table) : ShiftResult :=
  match data.getCol q.target_variable with
  | none => { success := false, error := some ("KeyError: " ++ q.target_variable) }
  | some tcol =>
    let nb := data.nrows / 2
    let baseline_mean := pmean (tcol.take nb)
    let comparison_mean := pmean (tcol.drop nb)
    let entries := q.potential_drivers.foldl (shiftDriverStep corr data tcol nb) []
    match argmaxAbsContribution entries with
    | none => { success := false, error := some "max() arg is an empty sequence" }
    | some top =>
      { success := true, target_variable := some q.target_variable,
        baseline_mean := baseline_mean, comparison_mean := comparison_mean,
        shift_magnitude := osub comparison_mean baseline_mean,
        driver_contributions := entries, top_driver := some top }

/-- The raw query JSON as the dispatcher sees it: the query_type tag
plus the kind-specific payload when its required fields parse. -/
structure RawQuery where
  query_type : Option String := none
  effectQ : Option EffectQuery := none
  anomalyQ : Option AnomalyQuery := none
  shiftQ : Option ShiftQuery := none
  interventionQ : Option InterventionQuery := none
  counterfactualQ : Option CounterfactualQuery := none

/-- The dispatcher result: one of the five handler results, or the
failure dictionary built by the fallback branches and the outer
exception handler. -/
inductive DispatchResult where
  | effect (r : EffectResult)
  | anomaly (r : AnomalyResult)
  | shift (r : ShiftResult)
  | intervention (r : InterventionResult)
  | counterfactual (r : CounterfactualResult)
  | failure (query_type : Option String) (error : String)

/-- The success flag of whichever dictionary dispatch returned. -/
def DispatchResult.isSuccess : DispatchResult → Bool
  | .effect r => r.success
  | .anomaly r => r.success
  | .shift r => r.success
  | .intervention r => r.success
  | .counterfactual r => r.success
  | .failure _ _ => false

/-- Python str() of the optional tag, as interpolated into the unknown
query type message. -/
def pyStr : Option String → String
  | none => "None"
  | some s => s

/-- str(e) for the model construction errors. -/
def modelErrorMsg : ModelError → String
  | ModelError.missingVariables _ => "Data is missing required variables"
  | ModelError.configIncomplete =>
    "DAG configuration must specify treatment_variable and outcome_variable"
  | ModelError.dowhyFailed m => "DoWhy model creation failed: " ++ m

/-- dispatch_query: load the data, build the causal model, then route
on the query_type tag with the same if/elif chain as the source; a tag
outside the five recognized kinds reaches the fallback branch.  Any
load or model-construction failure is converted by the outer except
into a failure result: the function is total and never raises. -/
def dispatch_query (q : RawQuery) (dagLoad : Except String DagConfig)
    (dataLoad : Except String Table) (dw : DowhyOutcome)
    (identify : Except String Unit) (est : String → Except String ℚ)
    (corr : CorrFun) : DispatchResult :=
  match dataLoad with
  | Except.error e => .failure q.query_type e
  | Except.ok data =>
    match dagLoad with
    | Except.error e => .failure q.query_type e
    | Except.ok cfg =>
      match CausalModel_init cfg (some data) dw with
      | Except.error e => .failure q.query_type (modelErrorMsg e)
      | Except.ok _ =>
        match q.query_type with
        | none => .failure none ("Unknown query type: " ++ pyStr none)
        | some t =>
          if t = "effect_estimation" then
            match q.effectQ with
            | some qq => .effect (handle_effect_estimation identify est qq)
            | none => .failure (some t) "KeyError"
          else if t = "anomaly_attribution" then
            match q.anomalyQ with
            | some qq => .anomaly (handle_anomaly_attribution corr qq data)
            | none => .failure (some t) "KeyError"
          else if t = "distribution_shift_attribution" then
            match q.shiftQ with
            | some qq => .shift (handle_distribution_shift_attribution corr qq data)
            | none => .failure (some t) "KeyError"
          else if t = "intervention" then
            match q.interventionQ with
            | some qq => .intervention (handle_intervention corr qq data)
            | none => .failure (some t) "KeyError"
          else if t = "counterfactual" then
            match q.counterfactualQ with
            | some qq => .counterfactual (handle_counterfactual corr qq data)
            | none => .failure (some t) "KeyError"
          else .failure (some t) ("Unknown query type: " ++ t)

/-- Claim C9: when loading succeeds and model construction succeeds, a
query whose tag is none of the five recognized kinds reaches the
fallback branch: the dispatcher returns (it never raises, being a total
function) a failure result whose error string is exactly
"Unknown query type: " followed by the tag, hence contains the tag. -/
theorem c9_unknown_query_type (q : RawQuery) (cfg : DagConfig) (d : Table)
    (dw : DowhyOutcome) (identify : Except String Unit)
    (est : String → Except String ℚ) (corr : CorrFun) (t : String) (m : CausalModel)
    (hini : CausalModel_init cfg (some d) dw = Except.ok m)
    (ht : q.query_type = some t)
    (h1 : t ≠ "effect_estimation") (h2 : t ≠ "anomaly_attribution")
    (h3 : t ≠ "distribution_shift_attribution") (h4 : t ≠ "intervention")
    (h5 : t ≠ "counterfactual") :
    dispatch_query q (Except.ok cfg) (Except.ok d) dw identify est corr
      = DispatchResult.failure (some t) ("Unknown query type: " ++ t)
    ∧ (dispatch_query q (Except.ok cfg) (Except.ok d) dw identify est corr).isSuccess
      = false
    ∧ ∃ pre suf, "Unknown query type: " ++ t = pre ++ t ++ suf := by
  have hd : dispatch_query q (Except.ok cfg) (Except.ok d) dw identify est corr
      = DispatchResult.failure (some t) ("Unknown query type: " ++ t) := by
    unfold dispatch_query
    simp only [hini, ht]
    simp [h1, h2, h3, h4, h5]
  refine ⟨hd, by rw [hd]; rfl, "Unknown query type: ", "", ?_⟩
  simp

/-- Witness for c9_unknown_query_type at the tag not_a_real_type. -/
theorem c9_unknown_query_type_witness :
    dispatch_query { query_type := some "not_a_real_type" } (Except.ok cfgXY)
      (Except.ok tOnlyX) dwOk (Except.ok ()) estC5 corrNone
      = DispatchResult.failure (some "not_a_real_type")
          ("Unknown query type: " ++ "not_a_real_type")
    ∧ (dispatch_query { query_type := some "not_a_real_type" } (Except.ok cfgXY)
        (Except.ok tOnlyX) dwOk (Except.ok ()) estC5 corrNone).isSuccess = false
    ∧ ∃ pre suf, "Unknown query type: " ++ "not_a_real_type"
        = pre ++ "not_a_real_type" ++ suf :=
  c9_unknown_query_type { query_type := some "not_a_real_type" } cfgXY tOnlyX dwOk
    (Except.ok ()) estC5 corrNone "not_a_real_type"
    { dag_config := cfgXY, data := some tOnlyX,
      graph := CausalModel_build_networkx_graph cfgXY, dowhy_model := some () }
    rfl rfl (by decide) (by decide) (by decide) (by decide) (by decide)

/-! ## Synthetic data generator (synthetic_generator.py) -/

/-- _is_treatment_outcome_relationship: the edge is exactly the
declared treatment to outcome edge (role fields default to the empty
string when unset). -/
def is_treatment_outcome_relationship (cfg : DagConfig) (parent child : String) :
    Bool :=
  parent == cfg.treatment_variable.getD ""
    && child == cfg.outcome_variable.getD ""

/-- _is_confounder_relationship: the parent is a declared confounder
and the child is the treatment or the outcome variable. -/
def is_confounder_relationship (cfg : DagConfig) (parent child : String) : Bool :=
  (cfg.confounders.getD []).contains parent
    && (child == cfg.treatment_variable.getD ""
        || child == cfg.outcome_variable.getD "")

/-- The role-aware coefficient selection of the generation loop. -/
def relationshipCoeff (cfg : DagConfig) (parent child : String)
    (treatment_effect confounder_strength : ℚ) : ℚ :=
  if is_treatment_outcome_relationship cfg parent child then treatment_effect
  else if is_confounder_relationship cfg parent child then confounder_strength
  else 1 / 2

/-- Pointwise vector addition (numpy +=). -/
def vadd (a b : List ℚ) : List ℚ := List.zipWith (fun x y => x + y) a b

/-- Scalar times vector (numpy coeff * parent_values). -/
def vscale (c : ℚ) (l : List ℚ) : List ℚ := l.map (fun x => c * x)

/-- _generate_continuous_variable: a root variable is the raw noise
draw; a variable with parents starts from the noise draw (normal with
standard deviation noise_std; the random draw is modelled as the given
noise vector) and accumulates coefficient times parent column for each
parent. -/
def generate_continuous_variable (cfg : DagConfig) (var_name : String)
    (parents : List String) (data : String → List ℚ)
    (treatment_effect noise_std confounder_strength : ℚ) (noise : List ℚ) :
    List ℚ :=
  if parents.isEmpty then noise
  else
    parents.foldl
      (fun values parent =>
        vadd values
          (vscale (relationshipCoeff cfg parent var_name
              treatment_effect confounder_strength) (data parent)))
      noise

/-- The coefficient rule as the claim states it, with propositional
conditions: treatment_effect on exactly the declared treatment to
outcome edge, confounder_strength from a declared confounder into the
treatment or outcome, 0.5 otherwise. -/
def specCoeff (cfg : DagConfig) (parent child : String)
    (treatment_effect confounder_strength : ℚ) : ℚ :=
  if parent = cfg.treatment_variable.getD ""
      ∧ child = cfg.outcome_variable.getD "" then treatment_effect
  else if parent ∈ cfg.confounders.getD []
      ∧ (child = cfg.treatment_variable.getD ""
         ∨ child = cfg.outcome_variable.getD "") then confounder_strength
  else 1 / 2

theorem relationshipCoeff_eq_specCoeff (cfg : DagConfig) (parent child : String)
    (te cs : ℚ) :
    relationshipCoeff cfg parent child te cs = specCoeff cfg parent child te cs := by
  unfold relationshipCoeff specCoeff is_treatment_outcome_relationship
    is_confounder_relationship
  by_cases h1 : parent = cfg.treatment_variable.getD ""
      ∧ child = cfg.outcome_variable.getD ""
  · rw [if_pos h1, if_pos (by simp [h1.1, h1.2])]
  · rw [if_neg h1, if_neg (by simpa [Bool.and_eq_true, beq_iff_eq] using h1)]
    by_cases h2 : parent ∈ cfg.confounders.getD []
        ∧ (child = cfg.treatment_variable.getD ""
           ∨ child = cfg.outcome_variable.getD "")
    · rw [if_pos h2, if_pos ?_]
      simp only [Bool.and_eq_true, Bool.or_eq_true, beq_iff_eq]
      exact ⟨List.elem_iff.mpr h2.1, h2.2⟩
    · rw [if_neg h2, if_neg ?_]
      intro hb
      apply h2
      simp only [Bool.and_eq_true, Bool.or_eq_true, beq_iff_eq] at hb
      exact ⟨List.elem_iff.mp hb.1, hb.2⟩

theorem vadd_length (a b : List ℚ) : (vadd a b).length = min a.length b.length :=
  List.length_zipWith _ _ _

theorem vadd_getD (a b : List ℚ) (i : Nat) :
    ∀ (_ : i < a.length) (_ : i < b.length),
      (vadd a b).getD i 0 = a.getD i 0 + b.getD i 0 := by
  induction a generalizing b i with
  | nil => intro ha; cases ha
  | cons x xs ih =>
    intro ha hb
    cases b with
    | nil => cases hb
    | cons y ys =>
      cases i with
      | zero => rfl
      | succ k =>
        have hk : k < xs.length := Nat.lt_of_succ_lt_succ ha
        have hk2 : k < ys.length := Nat.lt_of_succ_lt_succ hb
        exact ih ys k hk hk2

theorem vscale_getD (c : ℚ) (l : List ℚ) (i : Nat) :
    ∀ (_ : i < l.length), (vscale c l).getD i 0 = c * l.getD i 0 := by
  induction l generalizing i with
  | nil => intro h; cases h
  | cons x xs ih =>
    intro h
    cases i with
    | zero => rfl
    | succ k => exact ih k (Nat.lt_of_succ_lt_succ h)


theorem vscale_length (c : ℚ) (l : List ℚ) : (vscale c l).length = l.length := by
  simp [vscale]

theorem generateFold_getD (cfg : DagConfig) (var_name : String)
    (data : String → List ℚ) (te cs : ℚ) (n : Nat) :
    ∀ parents : List String, (∀ p ∈ parents, (data p).length = n) →
      ∀ values : List ℚ, values.length = n →
        (parents.foldl
            (fun values parent =>
              vadd values (vscale (relationshipCoeff cfg parent var_name te cs)
                (data parent))) values).length = n
        ∧ ∀ i, i < n →
            (parents.foldl
                (fun values parent =>
                  vadd values (vscale (relationshipCoeff cfg parent var_name te cs)
                    (data parent))) values).getD i 0
              = values.getD i 0
                + (parents.map (fun p =>
                    relationshipCoeff cfg p var_name te cs
                      * (data p).getD i 0)).sum := by
  intro parents
  induction parents with
  | nil =>
    intro _ values hv
    refine ⟨hv, ?_⟩
    intro i _
    simp
  | cons p ps ih =>
    intro hdata values hv
    have hp : (data p).length = n := hdata p (List.mem_cons_self p ps)
    have hps : ∀ x ∈ ps, (data x).length = n :=
      fun x hx => hdata x (List.mem_cons_of_mem p hx)
    have hstep : (vadd values (vscale (relationshipCoeff cfg p var_name te cs)
        (data p))).length = n := by
      rw [vadd_length, vscale_length, hv, hp, Nat.min_self]
    have ihs := ih hps _ hstep
    rw [List.foldl_cons]
    refine ⟨ihs.1, ?_⟩
    intro i hi
    rw [ihs.2 i hi]
    have h1 : (vadd values (vscale (relationshipCoeff cfg p var_name te cs)
        (data p))).getD i 0
        = values.getD i 0
          + relationshipCoeff cfg p var_name te cs * (data p).getD i 0 := by
      rw [vadd_getD _ _ i (by rw [hv]; exact hi)
          (by rw [vscale_length, hp]; exact hi),
        vscale_getD _ _ i (by rw [hp]; exact hi)]
    rw [h1, List.map_cons, List.sum_cons]
    ring

/-- Claim C2: for a continuous variable with at least one parent, the
generated column (with the normal noise draw of standard deviation
noise_std modelled as the given noise vector) equals, entry by entry,
noise plus the sum over parents of coefficient times parent value,
where the coefficient is treatment_effect on exactly the declared
treatment to outcome edge, confounder_strength from a declared
confounder into the treatment or outcome variable, and 0.5
otherwise. -/
theorem c2_generate_continuous (cfg : DagConfig) (var_name : String)
    (parents : List String) (data : String → List ℚ)
    (treatment_effect noise_std confounder_strength : ℚ)
    (noise : List ℚ) (n : Nat) (hne : parents ≠ [])
    (hnoise : noise.length = n) (hdata : ∀ p ∈ parents, (data p).length = n) :
    (generate_continuous_variable cfg var_name parents data treatment_effect
        noise_std confounder_strength noise).length = n
    ∧ ∀ i, i < n →
        (generate_continuous_variable cfg var_name parents data treatment_effect
            noise_std confounder_strength noise).getD i 0
          = noise.getD i 0
            + (parents.map (fun p =>
                specCoeff cfg p var_name treatment_effect confounder_strength
                  * (data p).getD i 0)).sum := by
  have hne' : parents.isEmpty = false := by
    cases parents with
    | nil => exact absurd rfl hne
    | cons a l => rfl
  unfold generate_continuous_variable
  rw [hne']
  simp only [Bool.false_eq_true, if_false]
  have h := generateFold_getD cfg var_name data treatment_effect
    confounder_strength n parents hdata noise hnoise
  refine ⟨h.1, ?_⟩
  intro i hi
  rw [h.2 i hi]
  have hmap : parents.map (fun p =>
        relationshipCoeff cfg p var_name treatment_effect confounder_strength
          * (data p).getD i 0)
      = parents.map (fun p =>
        specCoeff cfg p var_name treatment_effect confounder_strength
          * (data p).getD i 0) :=
    List.map_congr_left (fun p _ => by rw [relationshipCoeff_eq_specCoeff])
  rw [hmap]

/-- Concrete parent data for the C2 witness: x is the treatment column,
z the confounder column. -/
def dataC2 : String → List ℚ := fun p =>
  if p = "x" then [1, 2] else [3, 4]

/-- Witness for c2_generate_continuous on the cfgC8 configuration, the
outcome y with parents z and x, at row 0. -/
theorem c2_generate_continuous_witness :
    (generate_continuous_variable cfgC8 "y" ["z", "x"] dataC2 2 (1 / 2) 1
        [0, 0]).length = 2
    ∧ (generate_continuous_variable cfgC8 "y" ["z", "x"] dataC2 2 (1 / 2) 1
          [0, 0]).getD 0 0
        = ([0, 0] : List ℚ).getD 0 0
          + ((["z", "x"] : List String).map (fun p =>
              specCoeff cfgC8 p "y" 2 1 * (dataC2 p).getD 0 0)).sum :=
  ⟨(c2_generate_continuous cfgC8 "y" ["z", "x"] dataC2 2 (1 / 2) 1 [0, 0] 2
      (by decide) rfl (by decide)).1,
   (c2_generate_continuous cfgC8 "y" ["z", "x"] dataC2 2 (1 / 2) 1 [0, 0] 2
      (by decide) rfl (by decide)).2 0 (by decide)⟩

theorem mem_dictInsert {α : Type} (m : List (String × α)) (k : String) (v : α) :
    ∀ x ∈ dictInsert m k v, x = (k, v) ∨ x ∈ m := by
  induction m with
  | nil =>
    intro x hx
    simp only [dictInsert, List.mem_singleton] at hx
    exact Or.inl hx
  | cons p ps ih =>
    intro x hx
    unfold dictInsert at hx
    by_cases hp : (p.1 == k) = true
    · rw [if_pos hp] at hx
      rcases List.mem_cons.mp hx with he | hm
      · exact Or.inl he
      · exact Or.inr (List.mem_cons_of_mem p hm)
    · rw [if_neg hp] at hx
      rcases List.mem_cons.mp hx with he | hm
      · exact Or.inr (he ▸ List.mem_cons_self p ps)
      · rcases ih x hm with h1 | h2
        · exact Or.inl h1
        · exact Or.inr (List.mem_cons_of_mem p h2)

theorem anomalyFold_mem (corr : CorrFun) (data : Table) (ycol : List ℚ)
    (mask : List Bool) (causes : List String) :
    ∀ (acc : List (String × ScoreEntry)) (c : String) (e : ScoreEntry),
      (c, e) ∈ causes.foldl (anomalyScoreStep corr data ycol mask) acc →
      (c, e) ∈ acc ∨ ∃ ccol, data.getCol c = some ccol
        ∧ e = anomalyEntry corr ycol mask ccol := by
  induction causes with
  | nil => intro acc c e h; exact Or.inl h
  | cons x xs ih =>
    intro acc c e hmem
    rw [List.foldl_cons] at hmem
    rcases ih _ c e hmem with hstep | hP
    · revert hstep
      unfold anomalyScoreStep
      cases hx : data.getCol x with
      | none => intro h; exact Or.inl h
      | some ccol =>
        intro h
        rcases mem_dictInsert _ _ _ (c, e) h with he | hm
        · injection he with h1 h2
          exact Or.inr ⟨ccol, by rw [h1]; exact hx, h2⟩
        · exact Or.inl hm
    · exact Or.inr hP

theorem shiftDriverStep_ne_nil (corr : CorrFun) (data : Table) (tcol : List ℚ)
    (nb : Nat) (acc : List (String × DriverEntry)) (driver : String)
    (h : acc ≠ []) : shiftDriverStep corr data tcol nb acc driver ≠ [] := by
  unfold shiftDriverStep
  cases hd : data.getCol driver with
  | none => exact h
  | some dcol => exact dictInsert_ne_nil _ _ _

theorem shiftFold_nil_iff (corr : CorrFun) (data : Table) (tcol : List ℚ)
    (nb : Nat) (drivers : List String) :
    ∀ acc : List (String × DriverEntry),
      (drivers.foldl (shiftDriverStep corr data tcol nb) acc = []
        ↔ (acc = [] ∧ ∀ d ∈ drivers, data.getCol d = none)) := by
  induction drivers with
  | nil => intro acc; simp
  | cons d ds ih =>
    intro acc
    rw [List.foldl_cons, ih]
    constructor
    · rintro ⟨hstep, hall⟩
      revert hstep
      unfold shiftDriverStep
      cases hd : data.getCol d with
      | none =>
        intro hstep
        refine ⟨hstep, ?_⟩
        intro x hx
        rcases List.mem_cons.mp hx with he | hm
        · rw [he]; exact hd
        · exact hall x hm
      | some dcol =>
        intro hstep
        exact absurd hstep (dictInsert_ne_nil _ _ _)
    · rintro ⟨hacc, hall⟩
      have hd : data.getCol d = none := hall d (List.mem_cons_self d ds)
      refine ⟨?_, fun x hx => hall x (List.mem_cons_of_mem d hx)⟩
      unfold shiftDriverStep
      rw [hd, hacc]

theorem shiftFold_lookup_none (corr : CorrFun) (data : Table) (tcol : List ℚ)
    (nb : Nat) (drivers : List String) (d : String)
    (hd : data.getCol d = none) :
    ∀ acc : List (String × DriverEntry), dictLookup acc d = none →
      dictLookup (drivers.foldl (shiftDriverStep corr data tcol nb) acc) d = none := by
  induction drivers with
  | nil => intro acc h; exact h
  | cons x xs ih =>
    intro acc h
    rw [List.foldl_cons]
    apply ih
    unfold shiftDriverStep
    cases hx : data.getCol x with
    | none => exact h
    | some dcol =>
      have hne : x ≠ d := by
        intro he
        rw [he, hd] at hx
        cases hx
      rw [dictLookup_insert_of_ne _ _ _ _ hne]
      exact h

theorem shiftFold_mem (corr : CorrFun) (data : Table) (tcol : List ℚ) (nb : Nat)
    (drivers : List String) :
    ∀ (acc : List (String × DriverEntry)) (d : String) (e : DriverEntry),
      (d, e) ∈ drivers.foldl (shiftDriverStep corr data tcol nb) acc →
      (d, e) ∈ acc ∨ ∃ dcol, data.getCol d = some dcol
        ∧ e = shiftEntry corr tcol nb dcol := by
  induction drivers with
  | nil => intro acc d e h; exact Or.inl h
  | cons x xs ih =>
    intro acc d e hmem
    rw [List.foldl_cons] at hmem
    rcases ih _ d e hmem with hstep | hP
    · revert hstep
      unfold shiftDriverStep
      cases hx : data.getCol x with
      | none => intro h; exact Or.inl h
      | some dcol =>
        intro h
        rcases mem_dictInsert _ _ _ (d, e) h with he | hm
        · injection he with h1 h2
          exact Or.inr ⟨dcol, by rw [h1]; exact hx, h2⟩
        · exact Or.inl hm
    · exact Or.inr hP

theorem interventionFold1_lookup_none (corr : CorrFun) (q : InterventionQuery)
    (data : Table) (ov : String) (hc : data.getCol ov = none) :
    ∀ (ovs : List String) acc,
      dictLookup acc.1 ov = none →
      dictLookup (ovs.foldl (interventionStep1 corr q data) acc).1 ov = none := by
  intro ovs
  induction ovs with
  | nil => intro acc h; exact h
  | cons x xs ih =>
    intro acc h
    rw [List.foldl_cons]
    apply ih
    unfold interventionStep1
    cases hx : data.getCol x with
    | none => exact h
    | some ycol =>
      have hne : x ≠ ov := by
        intro he
        rw [he, hc] at hx
        cases hx
      show dictLookup (dictInsert acc.1 x (pmean ycol)) ov = none
      rw [dictLookup_insert_of_ne _ _ _ _ hne]
      exact h

theorem interventionFold2_lookup_none (origs inters : List (String × Option ℚ))
    (ov : String) (ho : dictLookup origs ov = none) :
    ∀ (ovs : List String) acc,
      dictLookup acc ov = none →
      dictLookup (ovs.foldl (interventionStep2 origs inters) acc) ov = none := by
  intro ovs
  induction ovs with
  | nil => intro acc h; exact h
  | cons x xs ih =>
    intro acc h
    rw [List.foldl_cons]
    apply ih
    unfold interventionStep2
    cases hx : dictLookup origs x with
    | none => exact h
    | some o =>
      cases hix : dictLookup inters x with
      | none => exact h
      | some i =>
        have hne : x ≠ ov := by
          intro he
          rw [he, ho] at hx
          cases hx
        rw [dictLookup_insert_of_ne _ _ _ _ hne]
        exact h

theorem nrows_of_rect (data : Table) (n : Nat) (hrect : data.Rect n) (v : String)
    (col : List ℚ) (h : data.getCol v = some col) : data.nrows = n := by
  cases data with
  | mk cols =>
    cases cols with
    | nil =>
      unfold Table.getCol at h
      cases h
    | cons c cs =>
      unfold Table.nrows
      exact hrect c (List.mem_cons_self c cs)

/-- Claim C4, amended: on successfully loaded data, with the handler's
required outcome/target column present, the per-handler recoveries hold
as claimed except for the two empty-summary cases.  Anomaly
attribution: absent potential causes are skipped (they never enter the
attribution map), every stored correlation and restricted mean is the
NaN-to-zero guarded value, and the handler succeeds exactly when no
anomaly is found or some potential cause is a table column.
Distribution shift: absent drivers are skipped, the stored correlation
is NaN-to-zero guarded and the contribution is zero when the
correlation is NaN, the handler succeeds exactly when some driver is a
table column, and the stored half means are defined (not NaN) on a
rectangular table with at least two rows.  Intervention: the handler
always succeeds and an absent requested outcome is skipped.
Counterfactual: the handler always succeeds, an empty filtered row set
falls back to the unfiltered table, and the adjustment step is a no-op
for a variable that is absent, missing from the factual scenario, or
whose correlation is NaN.  The exception the counterexample forces:
when the anomaly handler finds anomalies with no potential cause
present — and likewise when the distribution-shift handler has no
potential driver present — the summary max over the empty map raises
and the handler returns success=false. -/
theorem c4_handlers_local_recovery (corr : CorrFun) (data : Table) :
    (∀ (q : AnomalyQuery) (ycol : List ℚ),
      data.getCol q.outcome_variable = some ycol →
      ((handle_anomaly_attribution corr q data).success = false
        ↔ ((∃ v ∈ ycol, q.anomaly_threshold < v)
            ∧ ∀ c ∈ q.potential_causes, data.getCol c = none))
      ∧ (∀ c, data.getCol c = none →
          dictLookup (handle_anomaly_attribution corr q data).attribution_scores c
            = none)
      ∧ (∀ c e,
          (c, e) ∈ (handle_anomaly_attribution corr q data).attribution_scores →
          ∃ ccol, data.getCol c = some ccol
            ∧ e.correlation = (corr ccol ycol).getD 0
            ∧ e.normal_mean
              = (pmean (selectMask ((ycol.map (fun v =>
                  decide (q.anomaly_threshold < v))).map (fun b => !b)) ccol)).getD 0
            ∧ e.anomaly_mean
              = (pmean (selectMask (ycol.map (fun v =>
                  decide (q.anomaly_threshold < v))) ccol)).getD 0))
    ∧ (∀ (q : ShiftQuery) (tcol : List ℚ),
      data.getCol q.target_variable = some tcol →
      ((handle_distribution_shift_attribution corr q data).success = false
        ↔ ∀ d ∈ q.potential_drivers, data.getCol d = none)
      ∧ (∀ d, data.getCol d = none →
          dictLookup
            (handle_distribution_shift_attribution corr q data).driver_contributions
            d = none)
      ∧ (∀ d e,
          (d, e)
            ∈ (handle_distribution_shift_attribution corr q data).driver_contributions →
          ∃ dcol, data.getCol d = some dcol
            ∧ e.correlation_with_target = (corr dcol tcol).getD 0
            ∧ (corr dcol tcol = none → e.estimated_contribution = some 0)
            ∧ e.baseline_mean = pmean (dcol.take (data.nrows / 2))
            ∧ e.comparison_mean = pmean (dcol.drop (data.nrows / 2))
            ∧ ∀ n, data.Rect n → 2 ≤ n →
                e.baseline_mean ≠ none ∧ e.comparison_mean ≠ none
                ∧ e.shift ≠ none ∧ e.estimated_contribution ≠ none))
    ∧ (∀ q : InterventionQuery,
      (handle_intervention corr q data).success = true
      ∧ ∀ ov, data.getCol ov = none →
          dictLookup (handle_intervention corr q data).intervention_effects ov
            = none)
    ∧ (∀ q : CounterfactualQuery,
      data.hasCol q.outcome_variable = true →
      (handle_counterfactual corr q data).success = true
      ∧ ((counterfactualFiltered data q.factualScen).nrows = 0 →
          (handle_counterfactual corr q data).factual_outcome
            = pmean ((data.getCol q.outcome_variable).getD []))
      ∧ ∀ (acc : ℚ) (pv : String × ℚ),
          (data.hasCol pv.1 = false
            ∨ dictLookup q.factualScen pv.1 = none
            ∨ corr ((data.getCol pv.1).getD [])
                ((data.getCol q.outcome_variable).getD []) = none) →
          counterfactualAdjStep corr q data acc pv = acc) := by
  refine ⟨?_, ?_, ?_, ?_⟩
  · -- anomaly attribution
    intro q ycol hy
    have hmaskiff : ((ycol.map (fun v => decide (q.anomaly_threshold < v))).any id
        = true) ↔ ∃ v ∈ ycol, q.anomaly_threshold < v := by
      simp [List.any_eq_true]
    cases hany : (ycol.map (fun v => decide (q.anomaly_threshold < v))).any id with
    | false =>
      have hsucc : (handle_anomaly_attribution corr q data).success = true := by
        unfold handle_anomaly_attribution
        rw [hy]
        simp [hany]
      have hscores :
          (handle_anomaly_attribution corr q data).attribution_scores = [] := by
        unfold handle_anomaly_attribution
        rw [hy]
        simp [hany]
      refine ⟨?_, ?_, ?_⟩
      · rw [hsucc]
        simp only [Bool.true_eq_false, false_iff, not_and]
        intro hex
        have h1 := hmaskiff.mpr hex
        rw [hany] at h1
        exact absurd h1 Bool.false_ne_true
      · intro c _
        rw [hscores]
        rfl
      · intro c e hmem
        rw [hscores] at hmem
        exact absurd hmem (List.not_mem_nil _)
    | true =>
      cases hS : q.potential_causes.foldl
          (anomalyScoreStep corr data ycol
            (ycol.map (fun v => decide (q.anomaly_threshold < v)))) [] with
      | nil =>
        have hsucc : (handle_anomaly_attribution corr q data).success = false := by
          unfold handle_anomaly_attribution
          rw [hy]
          simp [hany, hS, argmaxAbsCorrelation]
        have hscores :
            (handle_anomaly_attribution corr q data).attribution_scores = [] := by
          unfold handle_anomaly_attribution
          rw [hy]
          simp [hany, hS, argmaxAbsCorrelation]
        refine ⟨?_, ?_, ?_⟩
        · rw [hsucc]
          simp only [true_iff]
          exact ⟨hmaskiff.mp hany,
            ((anomalyFold_nil_iff corr data ycol _ q.potential_causes []).mp hS).2⟩
        · intro c _
          rw [hscores]
          rfl
        · intro c e hmem
          rw [hscores] at hmem
          exact absurd hmem (List.not_mem_nil _)
      | cons s rest =>
        have hsucc : (handle_anomaly_attribution corr q data).success = true := by
          unfold handle_anomaly_attribution
          rw [hy]
          simp [hany, hS, argmaxAbsCorrelation]
        have hscores : (handle_anomaly_attribution corr q data).attribution_scores
            = s :: rest := by
          unfold handle_anomaly_attribution
          rw [hy]
          simp [hany, hS, argmaxAbsCorrelation]
        refine ⟨?_, ?_, ?_⟩
        · rw [hsucc]
          simp only [Bool.true_eq_false, false_iff, not_and]
          intro _ hall
          have hnil : s :: rest = ([] : List (String × ScoreEntry)) := by
            rw [← hS]
            exact (anomalyFold_nil_iff corr data ycol _
              q.potential_causes []).mpr ⟨rfl, hall⟩
          cases hnil
        · intro c hc
          rw [hscores, ← hS]
          exact anomalyFold_lookup_none corr data ycol _ q.potential_causes c hc [] rfl
        · intro c e hmem
          rw [hscores, ← hS] at hmem
          rcases anomalyFold_mem corr data ycol _ q.potential_causes [] c e hmem with
            h0 | ⟨ccol, hcc, hee⟩
          · exact absurd h0 (List.not_mem_nil _)
          · exact ⟨ccol, hcc, by rw [hee]; rfl, by rw [hee]; rfl, by rw [hee]; rfl⟩
  · -- distribution shift attribution
    intro q tcol htc
    cases hS : q.potential_drivers.foldl
        (shiftDriverStep corr data tcol (data.nrows / 2)) [] with
    | nil =>
      have hsucc :
          (handle_distribution_shift_attribution corr q data).success = false := by
        unfold handle_distribution_shift_attribution
        rw [htc]
        simp [hS, argmaxAbsContribution]
      have hcontrib :
          (handle_distribution_shift_attribution corr q data).driver_contributions
            = [] := by
        unfold handle_distribution_shift_attribution
        rw [htc]
        simp [hS, argmaxAbsContribution]
      refine ⟨?_, ?_, ?_⟩
      · rw [hsucc]
        simp only [true_iff]
        exact ((shiftFold_nil_iff corr data tcol _ q.potential_drivers []).mp hS).2
      · intro d _
        rw [hcontrib]
        rfl
      · intro d e hmem
        rw [hcontrib] at hmem
        exact absurd hmem (List.not_mem_nil _)
    | cons s rest =>
      have hsucc :
          (handle_distribution_shift_attribution corr q data).success = true := by
        unfold handle_distribution_shift_attribution
        rw [htc]
        simp [hS, argmaxAbsContribution]
      have hcontrib :
          (handle_distribution_shift_attribution corr q data).driver_contributions
            = s :: rest := by
        unfold handle_distribution_shift_attribution
        rw [htc]
        simp [hS, argmaxAbsContribution]
      refine ⟨?_, ?_, ?_⟩
      · rw [hsucc]
        simp only [Bool.true_eq_false, false_iff]
        intro hall
        have hnil : s :: rest = ([] : List (String × DriverEntry)) := by
          rw [← hS]
          exact (shiftFold_nil_iff corr data tcol _
            q.potential_drivers []).mpr ⟨rfl, hall⟩
        cases hnil
      · intro d hd
        rw [hcontrib, ← hS]
        exact shiftFold_lookup_none corr data tcol _ q.potential_drivers d hd [] rfl
      · intro d e hmem
        rw [hcontrib, ← hS] at hmem
        rcases shiftFold_mem corr data tcol _ q.potential_drivers [] d e hmem with
          h0 | ⟨dcol, hdc, hee⟩
        · exact absurd h0 (List.not_mem_nil _)
        · refine ⟨dcol, hdc, by rw [hee]; rfl, ?_, by rw [hee]; rfl,
            by rw [hee]; rfl, ?_⟩
          · intro hcorr
            rw [hee]
            show (match corr dcol tcol with
              | some cv => omul (osub (pmean (dcol.drop (data.nrows / 2)))
                  (pmean (dcol.take (data.nrows / 2)))) (some cv)
              | none => some 0) = some 0
            rw [hcorr]
          · intro n hrect h2n
            have hdl : dcol.length = n := getCol_length data n hrect d dcol hdc
            have hnr : data.nrows = n := nrows_of_rect data n hrect d dcol hdc
            have h1 : (dcol.take (data.nrows / 2)).length ≠ 0 := by
              rw [hnr, List.length_take, hdl, Nat.min_eq_left (Nat.div_le_self n 2)]
              have hge : 1 ≤ n / 2 := (Nat.one_le_div_iff (by norm_num)).mpr h2n
              omega
            have h2 : (dcol.drop (data.nrows / 2)).length ≠ 0 := by
              rw [hnr, List.length_drop, hdl]
              have hlt : n / 2 < n := Nat.div_lt_self (by omega) (by norm_num)
              omega
            have hb := pmean_some _ h1
            have hc2 := pmean_some _ h2
            rw [hee]
            refine ⟨?_, ?_, ?_, ?_⟩
            · show pmean (dcol.take (data.nrows / 2)) ≠ none
              rw [hb]
              simp
            · show pmean (dcol.drop (data.nrows / 2)) ≠ none
              rw [hc2]
              simp
            · show osub (pmean (dcol.drop (data.nrows / 2)))
                (pmean (dcol.take (data.nrows / 2))) ≠ none
              rw [hb, hc2]
              simp [osub]
            · show (match corr dcol tcol with
                | some cv => omul (osub (pmean (dcol.drop (data.nrows / 2)))
                    (pmean (dcol.take (data.nrows / 2)))) (some cv)
                | none => some 0) ≠ none
              cases hcc : corr dcol tcol with
              | none => simp
              | some cv =>
                rw [hb, hc2]
                simp [osub, omul]
  · -- intervention
    intro q
    refine ⟨rfl, ?_⟩
    intro ov hc
    have h1 : dictLookup
        (q.outcome_variables.foldl (interventionStep1 corr q data) ([], [])).1 ov
        = none :=
      interventionFold1_lookup_none corr q data ov hc q.outcome_variables ([], []) rfl
    exact interventionFold2_lookup_none
      (q.outcome_variables.foldl (interventionStep1 corr q data) ([], [])).1
      (q.outcome_variables.foldl (interventionStep1 corr q data) ([], [])).2
      ov h1 q.outcome_variables [] rfl
  · -- counterfactual
    intro q hy0
    have hhc : (if (counterfactualFiltered data q.factualScen).nrows = 0 then data
        else counterfactualFiltered data q.factualScen).hasCol q.outcome_variable
        = true := by
      by_cases h0 : (counterfactualFiltered data q.factualScen).nrows = 0
      · simp [h0, hy0]
      · simp [h0, hasCol_counterfactualFiltered, hy0]
    obtain ⟨ycol, hyc⟩ : ∃ ycol,
        (if (counterfactualFiltered data q.factualScen).nrows = 0 then data
          else counterfactualFiltered data q.factualScen).getCol q.outcome_variable
        = some ycol := by
      unfold Table.hasCol at hhc
      exact Option.isSome_iff_exists.mp hhc
    refine ⟨?_, ?_, ?_⟩
    · simp only [handle_counterfactual, hyc]
    · intro h0
      have hyc2 := hyc
      rw [if_pos h0] at hyc2
      simp only [handle_counterfactual, hyc, hyc2, Option.getD_some]
    · intro acc pv hrec
      unfold counterfactualAdjStep
      rcases hrec with h | h | h
      · simp [h]
      · by_cases hd : data.hasCol pv.1
        · simp [hd, h]
        · simp [hd]
      · by_cases hd : data.hasCol pv.1
        · cases hl : dictLookup q.factualScen pv.1 with
          | none => simp [hd, hl]
          | some fv => simp [hd, hl, h]
        · simp [hd]

/-- A concrete shift query for the C4 witness: driver x is not a
column of tC4. -/
def qShiftW : ShiftQuery :=
  { target_variable := "y", baseline_period := "first",
    comparison_period := "second", potential_drivers := ["x"] }

/-- A concrete intervention query for the C4 witness. -/
def qIntW : InterventionQuery :=
  { intervention_variable := "x", intervention_value := 1,
    outcome_variables := ["y"] }

/-- A concrete counterfactual query for the C4 witness. -/
def qCfW : CounterfactualQuery :=
  { factualScen := [], cfScen := [], outcome_variable := "y" }

/-- Witness for c4_handlers_local_recovery: the four handler parts
applied at concrete queries over the table tC4. -/
theorem c4_handlers_local_recovery_witness :
    ((handle_anomaly_attribution corrNone qC4 tC4).success = false
      ↔ ((∃ v ∈ ([1, 2, 10] : List ℚ), qC4.anomaly_threshold < v)
          ∧ ∀ c ∈ qC4.potential_causes, tC4.getCol c = none))
    ∧ ((handle_distribution_shift_attribution corrNone qShiftW tC4).success = false
      ↔ ∀ d ∈ qShiftW.potential_drivers, tC4.getCol d = none)
    ∧ (handle_intervention corrNone qIntW tC4).success = true
    ∧ (handle_counterfactual corrNone qCfW tC4).success = true :=
  ⟨((c4_handlers_local_recovery corrNone tC4).1 qC4 [1, 2, 10] rfl).1,
   ((c4_handlers_local_recovery corrNone tC4).2.1 qShiftW [1, 2, 10] rfl).1,
   ((c4_handlers_local_recovery corrNone tC4).2.2.1 qIntW).1,
   ((c4_handlers_local_recovery corrNone tC4).2.2.2 qCfW rfl).1⟩
